import Mathlib

/-!
# Chat with the Story: the page script, embedded

A shallow embedding of `src/merged.js`: the game-update schema and its
validation, `String.prototype.format` and `createModal`, the functions that
write a game update into the page, the chat handlers and the category
confirmation.

JavaScript values are the JSON values plus `undefined`.  A number is kept as
what the script can observe of it, the text it prints as.  The page is a
record of the elements the script reads and writes.  What the script appends
to an element is kept as the markup it hands to jQuery, in document order;
the children the browser makes of that markup are read off it by
`parseListMarkup`.  The scroll position is a layout property and is not part
of the record.
-/

namespace ChatStory

/-! ## JavaScript values -/

/-- A JavaScript number, as the script can observe it: `NaN`, or any other
number, kept as the text `Number::toString` gives for it (`150`, `-5`, `1.5`,
`1e+21`, `Infinity`). -/
inductive JSNum where
  | nan
  | value (text : String)
  deriving DecidableEq, Repr

/-- The text a number prints as. -/
def JSNum.toStr : JSNum → String
  | .nan => "NaN"
  | .value text => text

/-- Truthiness of a number: `NaN`, `0` and `-0` (which prints `0`) are falsy. -/
def JSNum.truthy : JSNum → Bool
  | .nan => false
  | .value text => text != "0"

/-- The number an integer stands for, for integers below `10^21` in
magnitude, which print as their decimal numeral. -/
def JSNum.ofInt (n : Int) : JSNum :=
  .value (toString n)

/-- A JavaScript value: a JSON value or `undefined`. -/
inductive JSVal where
  | undefined
  | null
  | bool (b : Bool)
  | num (n : JSNum)
  | str (s : String)
  | arr (xs : List JSVal)
  | obj (fields : List (String × JSVal))

/-- How a call ends: it returns, a `TypeError` or a `ReferenceError` leaves
it, or it goes on in a way the embedding does not follow (`outside`). -/
inductive Completion where
  | normal
  | typeError
  | referenceError
  | outside
  deriving DecidableEq, Repr

mutual
/-- String conversion, as done by a template literal on its hole.  An object
prints through `Object.prototype.toString`; it is taken to carry no
`toString` or `valueOf` key of its own. -/
def JSVal.toStr : JSVal → String
  | .undefined => "undefined"
  | .null => "null"
  | .bool b => if b then "true" else "false"
  | .num n => n.toStr
  | .str s => s
  | .arr xs => JSVal.joinStr xs
  | .obj _ => "[object Object]"
/-- Array conversion: the elements joined by commas. -/
def JSVal.joinStr : List JSVal → String
  | [] => ""
  | [x] => JSVal.elemStr x
  | x :: y :: r => JSVal.elemStr x ++ "," ++ JSVal.joinStr (y :: r)
/-- An element inside a joined array: `null` and `undefined` print empty. -/
def JSVal.elemStr : JSVal → String
  | .undefined => ""
  | .null => ""
  | .bool b => if b then "true" else "false"
  | .num n => n.toStr
  | .str s => s
  | .arr xs => JSVal.joinStr xs
  | .obj _ => "[object Object]"
end

/-- Truthiness, as tested by `if (v)`.  -/
def JSVal.truthy : JSVal → Bool
  | .undefined => false
  | .null => false
  | .bool b => b
  | .num n => n.truthy
  | .str s => s != ""
  | .arr _ => true
  | .obj _ => true

/-- Own property of an object literal, `undefined` when the key is absent. -/
def lookupField (k : String) : List (String × JSVal) → JSVal
  | [] => .undefined
  | (k', v) :: r => if k' = k then v else lookupField k r

/-- Property read `v.k` for a key the built-in prototypes do not define:
reading from `undefined` or `null` throws (`none`), a primitive or an array
has no such property. -/
def JSVal.getProp (v : JSVal) (k : String) : Option JSVal :=
  match v with
  | .undefined => none
  | .null => none
  | .obj fs => some (lookupField k fs)
  | _ => some .undefined

/-- Property read on a value already known not to be `undefined` or `null`. -/
def JSVal.prop (v : JSVal) (k : String) : JSVal :=
  (v.getProp k).getD .undefined

/-- What the loop `for (var i = 0; i < v.length; i++) ... v[i]` does with a
value: reading `length` throws, or the loop visits a list of values, or the
run is one the embedding does not follow. -/
inductive Visit where
  | throws
  | visits (xs : List JSVal)
  | outside

/-- What is computed from the visited values, when the loop visits some. -/
def Visit.map {α : Type} (f : List JSVal → α) : Visit → Option α
  | .visits xs => some (f xs)
  | _ => none

/-- The loop `for (var i = 0; i < v.length; i++) ... v[i]` on a value.
Reading `length` of `undefined` or `null` throws; a boolean or a number has
no length, so the loop body never runs; an array gives its elements; a string
gives its characters, when all of them lie in the basic plane (beyond it the
code reads halves of characters); an object without a `length` key gives
nothing, and with one the number of rounds depends on a numeric comparison
that is not followed here. -/
def JSVal.items : JSVal → Visit
  | .undefined => .throws
  | .null => .throws
  | .bool _ => .visits []
  | .num _ => .visits []
  | .str s =>
    if s.data.all (fun c => c.toNat < 0x10000) then
      .visits (s.data.map fun c => .str (String.singleton c))
    else .outside
  | .arr xs => .visits xs
  | .obj fs => if fs.any (fun f => f.1 == "length") then .outside else .visits []

/-! ## The game-update schema (zod)

The schema is the one the script declares.  How a schema reads a value is
the zod library's part: a primitive schema accepts values of its type and
reports `invalid_type` otherwise (`Required` for a missing value; `NaN` is
no number to it); an array
schema checks every element; a tuple schema checks the length, then the
elements; an object schema checks every key of its shape, a missing key
being read as `undefined`, and drops the keys outside its shape.
-/

/-- The zod schema constructors the script uses. -/
inductive ZodType where
  | string
  | number
  | boolean
  | array (element : ZodType)
  | tuple (items : List ZodType)
  | object (shape : List (String × ZodType))

/-- One step of an issue path: an object key or an array index. -/
inductive PathSeg where
  | key (k : String)
  | idx (i : Nat)
  deriving DecidableEq, Repr

/-- The issue codes the schema can raise. -/
inductive IssueCode where
  | invalid_type
  | too_small
  | too_big
  deriving DecidableEq, Repr

/-- A validation issue: its code, where it is, and the message. -/
structure ZodIssue where
  code : IssueCode
  path : List PathSeg
  message : String
  deriving DecidableEq, Repr

/-- The type name zod reports for a value (`getParsedType`). -/
def JSVal.parsedType : JSVal → String
  | .undefined => "undefined"
  | .null => "null"
  | .bool _ => "boolean"
  | .num .nan => "nan"
  | .num (.value _) => "number"
  | .str _ => "string"
  | .arr _ => "array"
  | .obj _ => "object"

/-- The `invalid_type` issue with zod's default message: `Required` for a
missing value. -/
def invalidType (expected : String) (v : JSVal) (path : List PathSeg) : ZodIssue :=
  { code := .invalid_type, path := path,
    message :=
      match v with
      | .undefined => "Required"
      | _ => "Expected " ++ expected ++ ", received " ++ v.parsedType }

/-- What parsing one value gives: the issues raised and, unless parsing was
aborted, the output value. -/
structure ParseReturn where
  issues : List ZodIssue
  value : Option JSVal

/-- Every element of an array through the element parser `f`, each at its
index under the path. -/
def parseElems (f : List PathSeg → JSVal → ParseReturn) : List PathSeg → Nat → List JSVal →
    List ZodIssue × Option (List JSVal)
  | _, _, [] => ([], some [])
  | path, i, x :: xs =>
    let r := f (path ++ [.idx i]) x
    let rs := parseElems f path (i + 1) xs
    (r.issues ++ rs.1, (r.value.bind fun a => rs.2.map fun as => a :: as))

mutual
/-- Parsing a value against a schema at a path (zod's `_parse`). -/
def ZodType.parse : ZodType → List PathSeg → JSVal → ParseReturn
  | .string, path, v =>
    match v with
    | .str s => ⟨[], some (.str s)⟩
    | _ => ⟨[invalidType "string" v path], none⟩
  | .number, path, v =>
    match v with
    | .num (.value text) => ⟨[], some (.num (.value text))⟩
    | _ => ⟨[invalidType "number" v path], none⟩
  | .boolean, path, v =>
    match v with
    | .bool b => ⟨[], some (.bool b)⟩
    | _ => ⟨[invalidType "boolean" v path], none⟩
  | .array e, path, v =>
    match v with
    | .arr xs =>
      let rs := parseElems (fun p x => ZodType.parse e p x) path 0 xs
      ⟨rs.1, rs.2.map JSVal.arr⟩
    | _ => ⟨[invalidType "array" v path], none⟩
  | .tuple items, path, v =>
    match v with
    | .arr xs =>
      if xs.length < items.length then
        ⟨[{ code := .too_small, path := path,
            message := "Array must contain at least " ++ toString items.length ++ " element(s)" }],
          none⟩
      else
        let big : List ZodIssue :=
          if items.length < xs.length then
            [{ code := .too_big, path := path,
               message := "Array must contain at most " ++ toString items.length ++ " element(s)" }]
          else []
        let rs := ZodType.parseItems items path 0 xs
        ⟨big ++ rs.1, rs.2.map JSVal.arr⟩
    | _ => ⟨[invalidType "array" v path], none⟩
  | .object shape, path, v =>
    match v with
    | .obj fs =>
      let rs := ZodType.parseShape shape path fs
      ⟨rs.1, rs.2.map JSVal.obj⟩
    | _ => ⟨[invalidType "object" v path], none⟩
/-- The leading elements of an array against the item schemas of a tuple. -/
def ZodType.parseItems : List ZodType → List PathSeg → Nat → List JSVal →
    List ZodIssue × Option (List JSVal)
  | [], _, _, _ => ([], some [])
  | _ :: _, _, _, [] => ([], some [])
  | t :: ts, path, i, x :: xs =>
    let r := ZodType.parse t (path ++ [.idx i]) x
    let rs := ZodType.parseItems ts path (i + 1) xs
    (r.issues ++ rs.1, (r.value.bind fun a => rs.2.map fun as => a :: as))
/-- Every key of an object shape against the object's fields; keys outside
the shape are dropped from the output. -/
def ZodType.parseShape : List (String × ZodType) → List PathSeg → List (String × JSVal) →
    List ZodIssue × Option (List (String × JSVal))
  | [], _, _ => ([], some [])
  | (k, t) :: shape, path, fs =>
    let r := ZodType.parse t (path ++ [.key k]) (lookupField k fs)
    let rs := ZodType.parseShape shape path fs
    (r.issues ++ rs.1, (r.value.bind fun a => rs.2.map fun as => (k, a) :: as))
end

/-- The outcome of `safeParse`. -/
inductive SafeParse where
  | success (data : JSVal)
  | failure (issues : List ZodIssue)

/-- Validation of a payload: success exactly when no issue was raised. -/
def ZodType.safeParse (t : ZodType) (v : JSVal) : SafeParse :=
  let r := t.parse [] v
  match r.issues, r.value with
  | [], some d => .success d
  | is, _ => .failure is

/-- Whether validation succeeds. -/
def SafeParse.isSuccess : SafeParse → Bool
  | .success _ => true
  | .failure _ => false

/-- The issues of a failed validation, none for a success. -/
def SafeParse.issues : SafeParse → List ZodIssue
  | .success _ => []
  | .failure is => is

/-- The schema of a game update. -/
def gameUpdateParserZodObj : ZodType :=
  .object
    [ ("player_message", .string),
      ("inventory", .array .string),
      ("player_stats", .tuple [.number, .number, .number]),
      ("action_options", .array .string),
      ("can_rest", .boolean),
      ("can_heal", .boolean),
      ("generate_image", .boolean),
      ("image_prompt", .string) ]

/-- The keys of the game-update schema, in declaration order. -/
def gameUpdateFields : List String :=
  ["player_message", "inventory", "player_stats", "action_options",
   "can_rest", "can_heal", "generate_image", "image_prompt"]

/-! ## `String.prototype.format` and `createModal` -/

/-- Whether a value is `undefined` (`typeof v === 'undefined'`). -/
def JSVal.isUndefined : JSVal → Bool
  | .undefined => true
  | _ => false

/-- The regular expression `{(\d+)}` tried at the head of the text: the
captured digits when it matches there. -/
def matchPlaceholder : List Char → Option (List Char)
  | '\x7b' :: cs =>
    match cs.takeWhile Char.isDigit, cs.dropWhile Char.isDigit with
    | d :: ds, '\x7d' :: _ => some (d :: ds)
    | _, _ => none
  | _ => none

/-- The read `args[index]` of the arguments object with the captured text as
key: the argument whose position prints as that text, else `undefined`. -/
def argAt (args : List JSVal) (index : List Char) : JSVal :=
  match (List.range args.length).find? (fun i => (Nat.repr i).data = index) with
  | some i => args.getD i .undefined
  | none => .undefined

/-- The replacement callback: the argument if it is defined, else the match. -/
def replacer (args : List JSVal) (mtch index : List Char) : List Char :=
  if (argAt args index).isUndefined then mtch else (argAt args index).toStr.data

/-- The global replace, scanning the template once from left to right.
`skip` counts the characters of the current match still to be passed over;
the scan resumes right after the match. -/
def formatFrom (args : List JSVal) : Nat → List Char → List Char
  | _, [] => []
  | skip + 1, _ :: cs => formatFrom args skip cs
  | 0, c :: cs =>
    match matchPlaceholder (c :: cs) with
    | some ds => replacer args ('\x7b' :: ds ++ ['\x7d']) ds ++ formatFrom args (ds.length + 1) cs
    | none => c :: formatFrom args 0 cs

/-- The method `String.prototype.format`: `template.format(args...)`. -/
def format (template : String) (args : List JSVal) : String :=
  ⟨formatFrom args 0 template.data⟩

/-- The markup template of the modal. -/
def modal_template : String :=
  "\n    <div class=\"modal fade\" id=\"exampleModal\" tabindex=\"1\" role=\"dialog\" aria-labelledby=\"exampleModalLabel\" aria-hidden=\"true\">\n    <div class=\"modal-dialog\" role=\"document\">\n        <div class=\"modal-content\">\n        <div class=\"modal-header\">\n            <h5 class=\"modal-title\" id=\"exampleModalLabel\">\n            \x7b0\x7d\n            </h5>\n            <button type=\"button\" class=\"close\" data-dismiss=\"modal\" aria-label=\"Close\">\n            <span aria-hidden=\"true\">&times;</span>\n            </button>\n        </div>\n        <div class=\"modal-body\">\n            \x7b1\x7d\n        </div>\n        </div>\n    </div>\n    </div>\n"

/-- The template before its first placeholder. -/
def modalHead : String :=
  "\n    <div class=\"modal fade\" id=\"exampleModal\" tabindex=\"1\" role=\"dialog\" aria-labelledby=\"exampleModalLabel\" aria-hidden=\"true\">\n    <div class=\"modal-dialog\" role=\"document\">\n        <div class=\"modal-content\">\n        <div class=\"modal-header\">\n            <h5 class=\"modal-title\" id=\"exampleModalLabel\">\n            "

/-- The template between its two placeholders. -/
def modalMiddle : String :=
  "\n            </h5>\n            <button type=\"button\" class=\"close\" data-dismiss=\"modal\" aria-label=\"Close\">\n            <span aria-hidden=\"true\">&times;</span>\n            </button>\n        </div>\n        <div class=\"modal-body\">\n            "

/-- The template after its second placeholder. -/
def modalTail : String :=
  "\n        </div>\n        </div>\n    </div>\n    </div>\n"

/-! ## The page -/

/-- A select of the parameter list: its id, its options, the selected option
(`none` when `.val()` is `null`) and whether it is disabled. -/
structure Select where
  id : String
  options : List String
  value : Option String
  disabled : Bool
  deriving DecidableEq, Repr

/-- A child of `#main-chat`: a message bubble, kept as its markup, or the
group of option buttons, kept as the texts of its buttons. -/
inductive ChatNode where
  | bubble (html : String)
  | selector (options : List String)
  deriving DecidableEq, Repr

/-- The page as the script sees it. -/
structure Page where
  /-- Children of `#main-chat`. -/
  chat : List ChatNode
  /-- Children of `#inventory`. -/
  inventory : List String
  /-- Children of `#player-stats`. -/
  stats : List String
  /-- Children of `#action-options`. -/
  actionOptions : List String
  /-- The `disabled` property of `#rest-button`. -/
  restDisabled : Bool
  /-- The `disabled` property of `#heal-button`. -/
  healDisabled : Bool
  /-- The value of `#chat-input`. -/
  chatInput : String
  /-- Whether `#sidebar` has the class `active`. -/
  sidebarActive : Bool
  /-- The selects under `#list-parameters`, in document order. -/
  selects : List Select
  /-- Whether the confirm form is in the document. -/
  confirmButton : Bool
  /-- The global `saved_categories`, keys in insertion order. -/
  saved_categories : List (String × String)
  /-- The modals shown, as their markup. -/
  modals : List String
  /-- The pending `setTimeout` callbacks, each with the message it captured. -/
  timers : List String
  deriving DecidableEq, Repr

/-- The story categories and their options. -/
def CATEGORIES : List (String × List String) :=
  [ ("History",
      [ "🐊 A young and curious adventurer",
        "🧙‍♂️ A skilled mage with a troubled past",
        "👩‍🎨 A cunning thief seeking redemption",
        "🥷 An honorable knight on a quest",
        "😵‍💫 A wise and ancient forest spirit",
        "🧳 A lost traveler from another realm" ]),
    ("Trait",
      [ "💪 Strength: Allows the character to overcome physical obstacles or engage in combat",
        "🧠 Intelligence: Helps the character solve puzzles and decipher complex riddles",
        "🏃‍♀️ Agility: Enables the character to navigate treacherous terrain or evade danger",
        "💄 Charm: Allows the character to persuade or manipulate NPCs",
        "👀 Perception: Helps the character notice hidden clues or detect hidden dangers",
        "🪄 Magic: Grants the character access to powerful spells and abilities" ]),
    ("Location",
      [ "🕍 An ancient temple hidden deep within the forest",
        "🏙️ A mystical village populated by magical creatures",
        "⛰️ A dark and treacherous swamp filled with dangerous creatures",
        "💦 A towering waterfall cascading into a hidden cavern",
        "📚 A forgotten library guarded by enchanted books",
        "🏡 A mystical garden blooming with rare and powerful herbs" ]),
    ("Goal",
      [ "🔍 Find a way to break a powerful curse",
        "🔮 Uncover the truth behind a mysterious prophecy",
        "🏆 Retrieve a stolen artifact of immense power",
        "⚖️ Restore balance to the enchanted forest",
        "🌐 Discover the source of a spreading corruption",
        "💖 Save a captured loved one from an evil sorcerer" ]),
    ("Item",
      [ "🔑 A rusty key with an unknown purpose",
        "🗺️ A worn-out map with cryptic symbols",
        "💍 A magical pendant that glows faintly",
        "💼 A small satchel of healing herbs and potions",
        "📩 A mysterious letter with a hidden message",
        "🗡️ A silver dagger with intricate engravings" ]) ]

/-- The additional style categories and their options. -/
def Style_CATEGORIES : List (String × List String) :=
  [ ("Style",
      [ "🧙‍♂️ Fantasy",
        "🏰 Medieval",
        "🌌 Sci-Fi",
        "🌿 Nature",
        "🏙️ Urban" ]),
    ("Color",
      [ "🔴 Red",
        "🟠 Orange",
        "🟡 Yellow",
        "🟢 Green",
        "🔵 Blue",
        "🟣 Purple" ]),
    ("Shape",
      [ "⚪ Circle",
        "⬜ Square",
        "🔺 Triangle",
        "🔻 Diamond",
        "🔘 Rectangle",
        "🔳 Hexagon" ]),
    ("Character",
      [ "👑 King",
        "👸 Queen",
        "🧚 Fairy",
        "🧟 Zombie",
        "🦄 Unicorn",
        "🐉 Dragon" ]),
    ("Background",
      [ "🌅 Sunset",
        "🏞️ Mountains",
        "🌊 Ocean",
        "🌆 Cityscape",
        "🌌 Galaxy",
        "🏝️ Beach" ]) ]

/-- The placeholder options every AI message is given. -/
def aiOptions : List String := ["AI Option 1", "AI Option 2", "AI Option 3"]

/-- Assignment `o[k] = v` on an object: an existing key keeps its place. -/
def setProp (k v : String) : List (String × String) → List (String × String)
  | [] => [(k, v)]
  | (k', v') :: r => if k' = k then (k, v) :: r else (k', v') :: setProp k v r

/-- Read `o[k]` on `saved_categories`. -/
def lookupSaved (k : String) : List (String × String) → Option String
  | [] => none
  | (k', v) :: r => if k' = k then some v else lookupSaved k r

/-- The characters `trim` removes: white space and line terminators. -/
def isWhiteSpace (c : Char) : Bool :=
  let n := c.toNat
  n == 0x09 || n == 0x0A || n == 0x0B || n == 0x0C || n == 0x0D || n == 0x20 || n == 0xA0 ||
  n == 0x1680 || (0x2000 ≤ n && n ≤ 0x200A) || n == 0x2028 || n == 0x2029 || n == 0x202F ||
  n == 0x205F || n == 0x3000 || n == 0xFEFF

/-- The method `String.prototype.trim`. -/
def jsTrim (s : String) : String :=
  ⟨((s.data.dropWhile isWhiteSpace).reverse.dropWhile isWhiteSpace).reverse⟩

/-- The function `createModal`: the template filled with title and content,
shown. -/
def createModal (title content : String) (page : Page) : Page :=
  { page with modals := page.modals ++ [format modal_template [.str title, .str content]] }

/-- Markup of a user bubble. -/
def userBubble (message : String) : String :=
  "<div class=\"w-100 d-flex justify-content-end\"><div class=\"w-75 alert alert-success\" role=\"alert\">"
    ++ message ++ "</div></div>"

/-- Markup of an AI bubble. -/
def aiBubble (message : String) : String :=
  "<div class=\"w-100 d-flex justify-content-start\"><div class=\"w-75 alert alert-info\" role=\"alert\">"
    ++ message ++ "</div></div>"

/-- Markup of a list entry. -/
def li (text : String) : String :=
  "<li>" ++ text ++ "</li>"

/-- The function `addUserMessage`. -/
def addUserMessage (message : JSVal) (page : Page) : Page :=
  { page with chat := page.chat ++ [.bubble (userBubble message.toStr)] }

/-- The function `addAIMessageSelector`: one button per option, appended to
the chat as one group. -/
def addAIMessageSelector (options : List String) (page : Page) : Page :=
  { page with chat := page.chat ++ [.selector options] }

/-- The function `addAIMessage`. -/
def addAIMessage (message : JSVal) (options : List String) (page : Page) : Page :=
  addAIMessageSelector options
    { page with chat := page.chat ++ [.bubble (aiBubble message.toStr)] }

/-- The function `updateInventory`: the list is emptied, then the markup
built from each item is handed to jQuery and appended. -/
def updateInventory (inventory : JSVal) (page : Page) : Page × Completion :=
  let emptied := { page with inventory := [] }
  match inventory.items with
  | .throws => (emptied, .typeError)
  | .outside => (emptied, .outside)
  | .visits xs =>
    (xs.foldl (fun p x => { p with inventory := p.inventory ++ [li x.toStr] }) emptied, .normal)

/-- The function `updatePlayerStats`. -/
def updatePlayerStats (playerStats : JSVal) (page : Page) : Page × Completion :=
  let emptied := { page with stats := [] }
  match playerStats.items with
  | .throws => (emptied, .typeError)
  | .outside => (emptied, .outside)
  | .visits xs =>
    (xs.foldl (fun p x => { p with stats := p.stats ++ [li x.toStr] }) emptied, .normal)

/-- The function `updateActionOptions`. -/
def updateActionOptions (actionOptions : JSVal) (page : Page) : Page × Completion :=
  let emptied := { page with actionOptions := [] }
  match actionOptions.items with
  | .throws => (emptied, .typeError)
  | .outside => (emptied, .outside)
  | .visits xs =>
    (xs.foldl (fun p x => { p with actionOptions := p.actionOptions ++ [li x.toStr] }) emptied,
      .normal)

/-- The function `updateRestAndHealButtons`. -/
def updateRestAndHealButtons (canRest canHeal : JSVal) (page : Page) : Page :=
  let rested :=
    if canRest.truthy then { page with restDisabled := false }
    else { page with restDisabled := true }
  if canHeal.truthy then { rested with healDisabled := false }
  else { rested with healDisabled := true }

/-- The function `generateImage`: its body is empty. -/
def generateImage (_imagePrompt : JSVal) (page : Page) : Page :=
  page

/-- Sequencing: the next statement runs only if the call before returned. -/
def andThen (r : Page × Completion) (next : Page → Page × Completion) : Page × Completion :=
  match r.2 with
  | .normal => next r.1
  | stopped => (r.1, stopped)

/-- The function `processGameUpdate`. -/
def processGameUpdate (gameUpdate : JSVal) (page : Page) : Page × Completion :=
  match gameUpdate.getProp "player_message" with
  | none => (page, .typeError)
  | some message =>
    andThen (updateInventory (gameUpdate.prop "inventory") (addUserMessage message page)) fun p2 =>
    andThen (updatePlayerStats (gameUpdate.prop "player_stats") p2) fun p3 =>
    andThen (updateActionOptions (gameUpdate.prop "action_options") p3) fun p4 =>
    let p5 := updateRestAndHealButtons (gameUpdate.prop "can_rest") (gameUpdate.prop "can_heal") p4
    let p6 :=
      if (gameUpdate.prop "generate_image").truthy then
        generateImage (gameUpdate.prop "image_prompt") p5
      else p5
    (p6, .normal)

/-- The function `simulateAIResponse` up to its first `await`: the message
is built, then `chain.format` is to be called.  The script declares no
`chain`, so evaluating the name throws a `ReferenceError` and the call ends
there, with the page as it was. -/
def simulateAIResponse (_option : String) (page : Page) : Page × Completion :=
  (page, .referenceError)

/-- The function `simulateAIResponse` after its awaits: the AI message, then
`processGameUpdate`.  These lines run only on a page that supplies `chain`
and `chat`; `output` is the message the model call gave and `formattedOutput`
what `gameUpdateParser.parse` returned for it. -/
def simulateAIResponseResume (output formattedOutput : JSVal) (page : Page) : Page × Completion :=
  processGameUpdate formattedOutput (addAIMessage output aiOptions page)

/-- The click handler of `#chat-submission-button`. -/
def chatSubmission (page : Page) : Page :=
  let userMessage := jsTrim page.chatInput
  if userMessage ≠ "" then
    { addUserMessage (.str userMessage) page with
      chatInput := ""
      timers := page.timers ++ [userMessage] }
  else page

/-- The callback given to `setTimeout` by the submission handler, run for
the oldest pending timer: the AI message, then `simulateAIResponse`, whose
failure stays inside its promise. -/
def timerFires (page : Page) : Page :=
  match page.timers with
  | [] => page
  | userMessage :: rest =>
    (simulateAIResponse userMessage
      (addAIMessage (.str ("This is the AI's response to your message: " ++ userMessage)) aiOptions
        { page with timers := rest })).1

/-- The click handler of an option button: button `j` of chat child `i`. -/
def optionClick (i j : Nat) (page : Page) : Page :=
  match page.chat.get? i with
  | some (.selector options) =>
    match options.get? j with
    | some selectedOption =>
      (simulateAIResponse selectedOption
        (chatSubmission
          (addUserMessage (.str selectedOption) { page with chat := page.chat.eraseIdx i }))).1
    | none => page
  | _ => page

/-- The click handler of `#toggle-sidebar`. -/
def toggleSidebar (page : Page) : Page :=
  { page with sidebarActive := !page.sidebarActive }

/-- The click handler of `#clear-chat`. -/
def clearChat (page : Page) : Page :=
  { page with chat := [] }

/-- The selects `generateCategoriesAndHandlers` creates for a table of
categories, one per category, with the category as id and one option per
item; a new select shows its first option.  The title written next to each
select is text only and is left out. -/
def generateSelects (table : List (String × List String)) : List Select :=
  table.map fun entry =>
    { id := entry.1, options := entry.2, value := entry.2.head?, disabled := false }

/-- The function `generateCategoriesAndHandlers`: the selects of both
tables, then the confirm form. -/
def generateCategoriesAndHandlers (page : Page) : Page :=
  { page with
    selects := page.selects ++ generateSelects CATEGORIES ++ generateSelects Style_CATEGORIES
    confirmButton := true }

/-- The ids of the ten category selects, in document order. -/
def categoryIds : List String :=
  ["History", "Trait", "Location", "Goal", "Item",
   "Style", "Color", "Shape", "Character", "Background"]

/-- The first loop of `handleCategorySubmission`: each select's value is
stored until a select without a value is met, whose id is returned. -/
def saveSelections : List Select → List (String × String) → List (String × String) × Option String
  | [], saved => (saved, none)
  | s :: rest, saved =>
    match s.value with
    | none => (saved, some s.id)
    | some selectedOption => saveSelections rest (setProp s.id selectedOption saved)

/-- The function `handleCategorySubmission`. -/
def handleCategorySubmission (page : Page) : Page :=
  match saveSelections page.selects page.saved_categories with
  | (saved, some select_id) =>
    createModal "Error" ("Category \"" ++ select_id ++ "\" has no selected option.")
      { page with saved_categories := saved }
  | (saved, none) =>
    addAIMessage
      (.str ("You have selected the following parameters: " ++
        ", ".intercalate (saved.map Prod.snd)))
      aiOptions
      { page with
        saved_categories := saved
        selects := page.selects.map fun s => { s with disabled := true }
        confirmButton := false }

/-- What can happen on the page. -/
inductive Event where
  /-- The player types into `#chat-input`. -/
  | typeInput (text : String)
  /-- A click on `#chat-submission-button`, or Enter in `#chat-input`. -/
  | chatSubmission
  /-- The oldest pending timer runs. -/
  | timerFires
  /-- A click on button `j` of the option group at chat position `i`. -/
  | optionClick (i j : Nat)
  /-- The lines of `simulateAIResponse` after its awaits run. -/
  | gameUpdate (output formattedOutput : JSVal)
  /-- A click on `#toggle-sidebar`. -/
  | toggleSidebar
  /-- A click on `#clear-chat`. -/
  | clearChat
  /-- The player picks an option in a select. -/
  | choose (id value : String)
  /-- The confirm form is submitted. -/
  | confirmParameters

/-- The page after one event.  A disabled select cannot be changed and a
form that was removed cannot be submitted. -/
def step (page : Page) : Event → Page
  | .typeInput text => { page with chatInput := text }
  | .chatSubmission => chatSubmission page
  | .timerFires => timerFires page
  | .optionClick i j => optionClick i j page
  | .gameUpdate output formattedOutput => (simulateAIResponseResume output formattedOutput page).1
  | .toggleSidebar => toggleSidebar page
  | .clearChat => clearChat page
  | .choose id value =>
    { page with
      selects := page.selects.map fun s =>
        if s.id = id ∧ s.disabled = false ∧ value ∈ s.options then { s with value := some value }
        else s }
  | .confirmParameters => if page.confirmButton then handleCategorySubmission page else page

/-- The page after a sequence of events. -/
def run (page : Page) (events : List Event) : Page :=
  events.foldl step page

/-! ## The children jQuery makes of list markup

The script hands `<li>item</li>` to jQuery, and the browser parses it.  The
reading below covers markup made of the tags `<li>` and `</li>` and of plain
text: a `<li>` closes the list item still open and opens a new one, a `</li>`
closes the open item and is ignored when none is open, text goes into the
open item or, with none open, into a text node between the items.  Markup
with any other use of `<`, or with `&`, NUL or a carriage return, is not
read (`none`).
-/

/-- A child of a list element: a list item with its text, or a text node. -/
inductive DomNode where
  | li (text : String)
  | text (data : String)
  deriving DecidableEq, Repr

/-- The characters that are not plain text to the HTML parser. -/
def isMarkupChar (c : Char) : Bool :=
  c == '<' || c == '&' || c == '\x00' || c == '\r'

/-- A token of list markup. -/
inductive MarkupToken where
  | liOpen
  | liClose
  | char (c : Char)
  deriving DecidableEq, Repr

/-- The tokens of list markup, `none` for markup that is not read. -/
def tokenize : List Char → Option (List MarkupToken)
  | [] => some []
  | '<' :: 'l' :: 'i' :: '>' :: r => (tokenize r).map fun ts => .liOpen :: ts
  | '<' :: '/' :: 'l' :: 'i' :: '>' :: r => (tokenize r).map fun ts => .liClose :: ts
  | c :: r => if isMarkupChar c then none else (tokenize r).map fun ts => .char c :: ts

/-- A character of text outside any list item: it joins the text node right
before it, or starts a new one. -/
def appendText (c : Char) : List DomNode → List DomNode
  | [] => [.text (String.singleton c)]
  | [.text data] => [.text (data.push c)]
  | [.li text] => [.li text, .text (String.singleton c)]
  | n :: m :: r => n :: appendText c (m :: r)

/-- The nodes built from the tokens: `done` holds the finished nodes and
`current` the text of the list item still open. -/
def buildNodes : List MarkupToken → List DomNode → Option (List Char) → List DomNode
  | [], done, none => done
  | [], done, some t => done ++ [.li ⟨t⟩]
  | .liOpen :: r, done, none => buildNodes r done (some [])
  | .liOpen :: r, done, some t => buildNodes r (done ++ [.li ⟨t⟩]) (some [])
  | .liClose :: r, done, none => buildNodes r done none
  | .liClose :: r, done, some t => buildNodes r (done ++ [.li ⟨t⟩]) none
  | .char c :: r, done, none => buildNodes r (appendText c done) none
  | .char c :: r, done, some t => buildNodes r done (some (t ++ [c]))

/-- The nodes jQuery makes of a piece of list markup. -/
def parseListMarkup (markup : String) : Option (List DomNode) :=
  (tokenize markup.data).map fun ts => buildNodes ts [] none

/-- The nodes made of several pieces of markup appended one after the other. -/
def childrenOf : List String → Option (List DomNode)
  | [] => some []
  | markup :: rest =>
    match parseListMarkup markup, childrenOf rest with
    | some nodes, some more => some (nodes ++ more)
    | _, _ => none

/-- The children of `#inventory`. -/
def inventoryChildren (page : Page) : Option (List DomNode) :=
  childrenOf page.inventory

/-! ## Auxiliary definitions -/

/-- A well-typed game update, as an object, its three stats given by the
texts they print as. -/
def gameUpdateWith (message : String) (inventory : List String) (health energy gold : String)
    (options : List String) (canRest canHeal generateImg : Bool) (imagePrompt : String) : JSVal :=
  .obj
    [ ("player_message", .str message),
      ("inventory", .arr (inventory.map JSVal.str)),
      ("player_stats", .arr [.num (.value health), .num (.value energy), .num (.value gold)]),
      ("action_options", .arr (options.map JSVal.str)),
      ("can_rest", .bool canRest),
      ("can_heal", .bool canHeal),
      ("generate_image", .bool generateImg),
      ("image_prompt", .str imagePrompt) ]

/-- A well-typed game update with integer stats. -/
def gameUpdateOf (message : String) (inventory : List String) (health energy gold : Int)
    (options : List String) (canRest canHeal generateImg : Bool) (imagePrompt : String) : JSVal :=
  gameUpdateWith message inventory (toString health) (toString energy) (toString gold) options
    canRest canHeal generateImg imagePrompt

/-- The number a decimal numeral stands for. -/
def numeralValue (ds : List Char) : Nat :=
  ds.foldl (fun a c => 10 * a + (c.toNat - 48)) 0

/-- The selections of a list of selects: id and selected option of every
select that has one. -/
def selections (selects : List Select) : List (String × String) :=
  selects.filterMap fun s => s.value.map fun v => (s.id, v)

/-- Storing a list of selections in `saved_categories`, one after the other. -/
def recordSelections (pairs : List (String × String)) (saved : List (String × String)) :
    List (String × String) :=
  pairs.foldl (fun acc kv => setProp kv.1 kv.2 acc) saved

/-- Text without a character that is markup to the HTML parser. -/
@[reducible]
def plainText (text : String) : Prop :=
  ∀ c ∈ text.data, isMarkupChar c = false

/-- The parts of the page `processGameUpdate` never writes. -/
def Page.untouched (p q : Page) : Prop :=
  q.chatInput = p.chatInput ∧ q.sidebarActive = p.sidebarActive ∧ q.selects = p.selects ∧
    q.confirmButton = p.confirmButton ∧ q.saved_categories = p.saved_categories ∧
    q.modals = p.modals ∧ q.timers = p.timers

/-- The data of a successful validation, `undefined` after a failure. -/
def SafeParse.data : SafeParse → JSVal
  | .success d => d
  | .failure _ => .undefined

/-- A page with nothing in it. -/
def blankPage : Page :=
  { chat := [], inventory := [], stats := [], actionOptions := [], restDisabled := false,
    healDisabled := false, chatInput := "", sidebarActive := false, selects := [],
    confirmButton := false, saved_categories := [], modals := [], timers := [] }

/-- A page in mid-game: a sword in the inventory, full stats, both buttons
enabled. -/
def stockedPage : Page :=
  { blankPage with
    inventory := [li "sword"]
    stats := [li "100", li "100", li "0"]
    actionOptions := [li "look", li "walk", li "wait"] }

/-- An update object that carries a message and nothing else. -/
def messageOnlyUpdate : JSVal :=
  .obj [("player_message", .str "You wake up.")]

/-- A well-typed update with two action options. -/
def twoOptionsUpdate : JSVal :=
  gameUpdateOf "A fork in the road." ["map"] 90 80 5 ["go left", "go right"] true false false ""

/-- A well-typed update whose stats are out of range. -/
def outOfRangeUpdate : JSVal :=
  gameUpdateOf "Strange forces." [] 150 (-5) (-10) ["run", "hide", "fight"] true true false ""

/-- A well-typed update with health 0. -/
def fatalUpdate : JSVal :=
  gameUpdateOf "The dragon strikes you down." [] 0 40 3 ["cry", "beg", "pray"] false false false ""

/-- A well-typed update but for `action_options`, which is missing; both flags
are false. -/
def optionsMissingUpdate : JSVal :=
  .obj
    [ ("player_message", .str "Wolves circle you."),
      ("inventory", .arr [.str "torch"]),
      ("player_stats", .arr [.num (.value "70"), .num (.value "20"), .num (.value "0")]),
      ("can_rest", .bool false),
      ("can_heal", .bool false),
      ("generate_image", .bool false),
      ("image_prompt", .str "") ]

/-- Two items, the first of which closes its list item and opens another. -/
def markupItems : List JSVal :=
  [.str "</li><li>x", .str "a"]

/-- The generated page with the selection of the `Trait` select cleared. -/
def traitClearedPage : Page :=
  { generateCategoriesAndHandlers blankPage with
    selects := (generateCategoriesAndHandlers blankPage).selects.map fun s =>
      if s.id = "Trait" then { s with value := none } else s }

/-! ## Validation: helper lemmas -/

theorem lookupField_absent (k : String) (fs : List (String × JSVal))
    (h : ∀ v, (k, v) ∉ fs) : lookupField k fs = .undefined := by
  induction fs with
  | nil => rfl
  | cons a r ih =>
    obtain ⟨k', v'⟩ := a
    have hne : k' ≠ k := by
      intro he
      exact h v' (by simp [he])
    simp only [lookupField, hne, if_false]
    exact ih fun v hv => h v (List.mem_cons_of_mem _ hv)

theorem parse_string_issues (p : List PathSeg) (v : JSVal) :
    (ZodType.parse .string p v).issues = [] ↔ ∃ s, v = .str s := by
  cases v <;> simp [ZodType.parse]

theorem parse_string_value (p : List PathSeg) (s : String) :
    ZodType.parse .string p (.str s) = ⟨[], some (.str s)⟩ := by
  simp [ZodType.parse]

theorem parse_number_issues (p : List PathSeg) (v : JSVal) :
    (ZodType.parse .number p v).issues = [] ↔ ∃ text, v = .num (.value text) := by
  cases v with
  | num n => cases n <;> simp [ZodType.parse]
  | _ => simp [ZodType.parse]

theorem parse_boolean_issues (p : List PathSeg) (v : JSVal) :
    (ZodType.parse .boolean p v).issues = [] ↔ ∃ b, v = .bool b := by
  cases v <;> simp [ZodType.parse]

theorem parseElems_string (p : List PathSeg) (i : Nat) (xs : List JSVal) :
    (parseElems (fun q x => ZodType.parse .string q x) p i xs).1 = [] ↔
      ∃ ss : List String, xs = ss.map JSVal.str := by
  induction xs generalizing i with
  | nil => exact ⟨fun _ => ⟨[], rfl⟩, fun _ => rfl⟩
  | cons x r ih =>
    simp only [parseElems, List.append_eq_nil, parse_string_issues, ih]
    constructor
    · rintro ⟨⟨s, rfl⟩, ss, rfl⟩
      exact ⟨s :: ss, rfl⟩
    · rintro ⟨ss, h⟩
      cases ss with
      | nil => simp at h
      | cons s ss =>
        simp only [List.map_cons, List.cons.injEq] at h
        exact ⟨⟨s, h.1⟩, ss, h.2⟩

theorem parseElems_string_value (p : List PathSeg) (i : Nat) (ss : List String) :
    parseElems (fun q x => ZodType.parse .string q x) p i (ss.map JSVal.str) =
      ([], some (ss.map JSVal.str)) := by
  induction ss generalizing i with
  | nil => rfl
  | cons s r ih =>
    simp only [List.map_cons, parseElems, ih, parse_string_value, List.append_nil,
      Option.map_some', Option.some_bind]

theorem parse_array_arr (e : ZodType) (p : List PathSeg) (xs : List JSVal) :
    ZodType.parse (.array e) p (.arr xs) =
      ⟨(parseElems (fun q x => ZodType.parse e q x) p 0 xs).1,
        (parseElems (fun q x => ZodType.parse e q x) p 0 xs).2.map JSVal.arr⟩ := by
  rw [ZodType.parse]

theorem parse_object_obj (shape : List (String × ZodType)) (p : List PathSeg)
    (fs : List (String × JSVal)) :
    ZodType.parse (.object shape) p (.obj fs) =
      ⟨(ZodType.parseShape shape p fs).1, (ZodType.parseShape shape p fs).2.map JSVal.obj⟩ := by
  rw [ZodType.parse]

theorem parseShape_cons (k : String) (t : ZodType) (shape : List (String × ZodType))
    (p : List PathSeg) (fs : List (String × JSVal)) :
    ZodType.parseShape ((k, t) :: shape) p fs =
      ((ZodType.parse t (p ++ [.key k]) (lookupField k fs)).issues ++
          (ZodType.parseShape shape p fs).1,
        (ZodType.parse t (p ++ [.key k]) (lookupField k fs)).value.bind fun a =>
          (ZodType.parseShape shape p fs).2.map fun as => (k, a) :: as) := by
  rw [ZodType.parseShape]

theorem parseShape_nil (p : List PathSeg) (fs : List (String × JSVal)) :
    ZodType.parseShape [] p fs = ([], some []) := by
  rw [ZodType.parseShape]

theorem parse_tuple3_arr3 (t1 t2 t3 : ZodType) (p : List PathSeg) (a b c : JSVal) :
    ZodType.parse (.tuple [t1, t2, t3]) p (.arr [a, b, c]) =
      ⟨(ZodType.parse t1 (p ++ [.idx 0]) a).issues ++ ((ZodType.parse t2 (p ++ [.idx 1]) b).issues
          ++ (ZodType.parse t3 (p ++ [.idx 2]) c).issues),
        ((ZodType.parse t1 (p ++ [.idx 0]) a).value.bind fun x =>
          ((ZodType.parse t2 (p ++ [.idx 1]) b).value.bind fun y =>
            ((ZodType.parse t3 (p ++ [.idx 2]) c).value.bind fun z =>
              some [z]).map fun r => y :: r).map fun r => x :: r).map JSVal.arr⟩ := by
  rw [ZodType.parse]
  simp only [List.length_cons, List.length_nil, lt_self_iff_false, if_false, List.nil_append]
  rw [ZodType.parseItems, ZodType.parseItems, ZodType.parseItems, ZodType.parseItems]
  simp

theorem parse_stringArray_issues (p : List PathSeg) (v : JSVal) :
    (ZodType.parse (.array .string) p v).issues = [] ↔
      ∃ ss : List String, v = .arr (ss.map JSVal.str) := by
  cases v with
  | arr xs =>
    simp only [parse_array_arr, JSVal.arr.injEq]
    exact parseElems_string p 0 xs
  | _ => simp [ZodType.parse]

theorem parse_stringArray_value (p : List PathSeg) (ss : List String) :
    ZodType.parse (.array .string) p (.arr (ss.map JSVal.str)) =
      ⟨[], some (.arr (ss.map JSVal.str))⟩ := by
  simp only [parse_array_arr, parseElems_string_value, Option.map_some']

theorem parse_number_value (p : List PathSeg) (text : String) :
    ZodType.parse .number p (.num (.value text)) = ⟨[], some (.num (.value text))⟩ := by
  simp [ZodType.parse]

theorem parse_boolean_value (p : List PathSeg) (b : Bool) :
    ZodType.parse .boolean p (.bool b) = ⟨[], some (.bool b)⟩ := by
  simp [ZodType.parse]

theorem parse_stats_issues (p : List PathSeg) (v : JSVal) :
    (ZodType.parse (.tuple [.number, .number, .number]) p v).issues = [] ↔
      ∃ h e g : String, v = .arr [.num (.value h), .num (.value e), .num (.value g)] := by
  cases v with
  | arr xs =>
    match xs with
    | [] => simp [ZodType.parse]
    | [a] => simp [ZodType.parse]
    | [a, b] => simp [ZodType.parse]
    | [a, b, c] =>
      simp only [parse_tuple3_arr3, List.append_eq_nil, parse_number_issues,
        JSVal.arr.injEq, List.cons.injEq, and_true]
      constructor
      · rintro ⟨⟨h, hh⟩, ⟨e, he⟩, ⟨g, hg⟩⟩
        exact ⟨h, e, g, hh, he, hg⟩
      · rintro ⟨h, e, g, hh, he, hg⟩
        exact ⟨⟨h, hh⟩, ⟨e, he⟩, ⟨g, hg⟩⟩
    | a :: b :: c :: d :: r =>
      have h1 : ¬ (r.length + 1 + 1 + 1 + 1 < 3) := by omega
      have h2 : 3 < r.length + 1 + 1 + 1 + 1 := by omega
      simp [ZodType.parse, h1, h2]
  | _ => simp [ZodType.parse]

theorem parse_stats_value (p : List PathSeg) (h e g : String) :
    ZodType.parse (.tuple [.number, .number, .number]) p
        (.arr [.num (.value h), .num (.value e), .num (.value g)]) =
      ⟨[], some (.arr [.num (.value h), .num (.value e), .num (.value g)])⟩ := by
  simp [parse_tuple3_arr3, parse_number_value]


theorem schema_parse_obj (fs : List (String × JSVal)) :
    ZodType.parse gameUpdateParserZodObj [] (.obj fs) =
      ⟨(ZodType.parseShape
          [ ("player_message", .string), ("inventory", .array .string),
            ("player_stats", .tuple [.number, .number, .number]),
            ("action_options", .array .string), ("can_rest", .boolean),
            ("can_heal", .boolean), ("generate_image", .boolean),
            ("image_prompt", .string) ] [] fs).1,
        (ZodType.parseShape
          [ ("player_message", .string), ("inventory", .array .string),
            ("player_stats", .tuple [.number, .number, .number]),
            ("action_options", .array .string), ("can_rest", .boolean),
            ("can_heal", .boolean), ("generate_image", .boolean),
            ("image_prompt", .string) ] [] fs).2.map JSVal.obj⟩ := by
  rw [gameUpdateParserZodObj, parse_object_obj]

theorem schema_issues_nil_iff (fs : List (String × JSVal)) :
    (ZodType.parse gameUpdateParserZodObj [] (.obj fs)).issues = [] ↔
      (∃ s, lookupField "player_message" fs = .str s) ∧
      (∃ ss : List String, lookupField "inventory" fs = .arr (ss.map JSVal.str)) ∧
      (∃ h e g : String, lookupField "player_stats" fs =
        .arr [.num (.value h), .num (.value e), .num (.value g)]) ∧
      (∃ ss : List String, lookupField "action_options" fs = .arr (ss.map JSVal.str)) ∧
      (∃ b, lookupField "can_rest" fs = .bool b) ∧
      (∃ b, lookupField "can_heal" fs = .bool b) ∧
      (∃ b, lookupField "generate_image" fs = .bool b) ∧
      (∃ s, lookupField "image_prompt" fs = .str s) := by
  rw [schema_parse_obj]
  simp only [parseShape_cons, parseShape_nil, List.append_eq_nil, parse_string_issues,
    parse_stringArray_issues, parse_stats_issues, parse_boolean_issues, and_true]

theorem schema_parse_typed (fs : List (String × JSVal)) (msg : String) (inv : List String)
    (h e g : String) (opts : List String) (r hl gi : Bool) (ip : String)
    (h1 : lookupField "player_message" fs = .str msg)
    (h2 : lookupField "inventory" fs = .arr (inv.map JSVal.str))
    (h3 : lookupField "player_stats" fs =
      .arr [.num (.value h), .num (.value e), .num (.value g)])
    (h4 : lookupField "action_options" fs = .arr (opts.map JSVal.str))
    (h5 : lookupField "can_rest" fs = .bool r)
    (h6 : lookupField "can_heal" fs = .bool hl)
    (h7 : lookupField "generate_image" fs = .bool gi)
    (h8 : lookupField "image_prompt" fs = .str ip) :
    ZodType.parse gameUpdateParserZodObj [] (.obj fs) =
      ⟨[], some (gameUpdateWith msg inv h e g opts r hl gi ip)⟩ := by
  rw [schema_parse_obj]
  simp only [parseShape_cons, parseShape_nil, h1, h2, h3, h4, h5, h6, h7, h8,
    parse_string_value, parse_stringArray_value, parse_stats_value, parse_boolean_value,
    List.append_nil, Option.some_bind, Option.map_some', gameUpdateWith]

theorem safeParse_success_inv (v d : JSVal)
    (hs : gameUpdateParserZodObj.safeParse v = .success d) :
    ∃ fs msg inv h e g opts r hl gi ip,
      v = .obj fs ∧
      lookupField "player_message" fs = .str msg ∧
      lookupField "inventory" fs = .arr (List.map JSVal.str inv) ∧
      lookupField "player_stats" fs =
        .arr [.num (.value h), .num (.value e), .num (.value g)] ∧
      lookupField "action_options" fs = .arr (List.map JSVal.str opts) ∧
      lookupField "can_rest" fs = .bool r ∧
      lookupField "can_heal" fs = .bool hl ∧
      lookupField "generate_image" fs = .bool gi ∧
      lookupField "image_prompt" fs = .str ip ∧
      d = gameUpdateWith msg inv h e g opts r hl gi ip := by
  unfold ZodType.safeParse at hs
  simp only at hs
  split at hs
  · rename_i d' hi hv
    cases v with
    | obj fs =>
      obtain ⟨⟨msg, h1⟩, ⟨inv, h2⟩, ⟨h, e, g, h3⟩, ⟨opts, h4⟩, ⟨r, h5⟩, ⟨hl, h6⟩, ⟨gi, h7⟩,
        ⟨ip, h8⟩⟩ := (schema_issues_nil_iff fs).1 hi
      refine ⟨fs, msg, inv, h, e, g, opts, r, hl, gi, ip, rfl, h1, h2, h3, h4, h5, h6, h7, h8, ?_⟩
      rw [schema_parse_typed fs msg inv h e g opts r hl gi ip h1 h2 h3 h4 h5 h6 h7 h8] at hv
      simp only [Option.some.injEq] at hv
      simp only [SafeParse.success.injEq] at hs
      rw [← hs, ← hv]
    | _ => simp [gameUpdateParserZodObj, ZodType.parse] at hi
  · exact absurd hs (by simp)

theorem safeParse_typed (fs : List (String × JSVal)) (msg : String) (inv : List String)
    (h e g : String) (opts : List String) (r hl gi : Bool) (ip : String)
    (h1 : lookupField "player_message" fs = .str msg)
    (h2 : lookupField "inventory" fs = .arr (inv.map JSVal.str))
    (h3 : lookupField "player_stats" fs =
      .arr [.num (.value h), .num (.value e), .num (.value g)])
    (h4 : lookupField "action_options" fs = .arr (opts.map JSVal.str))
    (h5 : lookupField "can_rest" fs = .bool r)
    (h6 : lookupField "can_heal" fs = .bool hl)
    (h7 : lookupField "generate_image" fs = .bool gi)
    (h8 : lookupField "image_prompt" fs = .str ip) :
    gameUpdateParserZodObj.safeParse (.obj fs) =
      .success (gameUpdateWith msg inv h e g opts r hl gi ip) := by
  unfold ZodType.safeParse
  rw [schema_parse_typed fs msg inv h e g opts r hl gi ip h1 h2 h3 h4 h5 h6 h7 h8]

theorem safeParse_failure_issues (v : JSVal)
    (hi : (ZodType.parse gameUpdateParserZodObj [] v).issues ≠ []) :
    gameUpdateParserZodObj.safeParse v =
      .failure (ZodType.parse gameUpdateParserZodObj [] v).issues := by
  unfold ZodType.safeParse
  simp only
  split
  · rename_i h1 h2
    exact absurd h1 hi
  · rfl

/-! ## Decimal numerals -/

theorem toDigitsCore_acc (fuel n : Nat) (acc : List Char) :
    Nat.toDigitsCore 10 fuel n acc = Nat.toDigitsCore 10 fuel n [] ++ acc := by
  induction fuel generalizing n acc with
  | zero => simp [Nat.toDigitsCore]
  | succ f ih =>
    simp only [Nat.toDigitsCore]
    by_cases h : n / 10 = 0
    · simp [h]
    · simp only [h, if_false]
      rw [ih (n / 10) (Nat.digitChar (n % 10) :: acc), ih (n / 10) [Nat.digitChar (n % 10)]]
      simp

theorem toDigitsCore_fuel (f1 f2 n : Nat) (acc : List Char) (h1 : n < f1) (h2 : n < f2) :
    Nat.toDigitsCore 10 f1 n acc = Nat.toDigitsCore 10 f2 n acc := by
  induction f1 generalizing f2 n acc with
  | zero => omega
  | succ f ih =>
    cases f2 with
    | zero => omega
    | succ g =>
      simp only [Nat.toDigitsCore]
      by_cases h : n / 10 = 0
      · simp [h]
      · simp only [h, if_false]
        have hlt : n / 10 < n := Nat.div_lt_self (by omega) (by omega)
        exact ih g (n / 10) _ (by omega) (by omega)

theorem toDigits_small (n : Nat) (h : n < 10) : Nat.toDigits 10 n = [Nat.digitChar n] := by
  have h0 : n / 10 = 0 := Nat.div_eq_of_lt h
  simp [Nat.toDigits, Nat.toDigitsCore, h0, Nat.mod_eq_of_lt h]

theorem toDigits_large (n : Nat) (h : 10 ≤ n) :
    Nat.toDigits 10 n = Nat.toDigits 10 (n / 10) ++ [Nat.digitChar (n % 10)] := by
  have h0 : n / 10 ≠ 0 := by omega
  have hlt : n / 10 < n := Nat.div_lt_self (by omega) (by omega)
  have e1 : Nat.toDigits 10 n = Nat.toDigitsCore 10 n (n / 10) [Nat.digitChar (n % 10)] := by
    simp only [Nat.toDigits, Nat.toDigitsCore, h0, if_false]
  rw [e1, toDigitsCore_acc, toDigitsCore_fuel n (n / 10 + 1) (n / 10) [] hlt (by omega)]
  rfl

theorem digitChar_value (k : Nat) (h : k < 10) : (Nat.digitChar k).toNat - 48 = k := by
  interval_cases k <;> rfl

theorem digitChar_isDigit (k : Nat) (h : k < 10) : (Nat.digitChar k).isDigit = true := by
  interval_cases k <;> rfl

theorem numeralValue_toDigits (n : Nat) : numeralValue (Nat.toDigits 10 n) = n := by
  induction n using Nat.strong_induction_on with
  | _ n ih =>
    by_cases h : n < 10
    · rw [toDigits_small n h]
      simp [numeralValue, digitChar_value n h]
    · have hlt : n / 10 < n := Nat.div_lt_self (by omega) (by omega)
      rw [toDigits_large n (by omega)]
      have := ih (n / 10) hlt
      unfold numeralValue at this ⊢
      rw [List.foldl_append, this]
      simp only [List.foldl_cons, List.foldl_nil]
      rw [digitChar_value _ (Nat.mod_lt _ (by omega))]
      omega

theorem toDigits_isDigit (n : Nat) : ∀ c ∈ Nat.toDigits 10 n, c.isDigit = true := by
  induction n using Nat.strong_induction_on with
  | _ n ih =>
    by_cases h : n < 10
    · rw [toDigits_small n h]
      intro c hc
      simp only [List.mem_singleton] at hc
      rw [hc]
      exact digitChar_isDigit n h
    · have hlt : n / 10 < n := Nat.div_lt_self (by omega) (by omega)
      rw [toDigits_large n (by omega)]
      intro c hc
      rcases List.mem_append.1 hc with hc | hc
      · exact ih (n / 10) hlt c hc
      · simp only [List.mem_singleton] at hc
        rw [hc]
        exact digitChar_isDigit _ (Nat.mod_lt _ (by omega))

theorem toDigits_ne_nil (n : Nat) : Nat.toDigits 10 n ≠ [] := by
  by_cases h : n < 10
  · rw [toDigits_small n h]; simp
  · rw [toDigits_large n (by omega)]; simp

theorem repr_data (n : Nat) : (Nat.repr n).data = Nat.toDigits 10 n := rfl

theorem repr_data_injective (m n : Nat) (h : (Nat.repr m).data = (Nat.repr n).data) : m = n := by
  rw [repr_data, repr_data] at h
  have := congrArg numeralValue h
  rwa [numeralValue_toDigits, numeralValue_toDigits] at this


/-! ## `format`: helper lemmas -/

theorem find_unique (p : Nat → Bool) (n : Nat) (l : List Nat) (hn : n ∈ l)
    (hp : ∀ i ∈ l, p i = true ↔ i = n) : l.find? p = some n := by
  induction l with
  | nil => simp at hn
  | cons a r ih =>
    by_cases ha : a = n
    · have hpa : p a = true := (hp a (List.mem_cons_self _ _)).2 ha
      simp only [List.find?, hpa]
      rw [ha]
    · have hpa : p a = false := by
        cases hq : p a with
        | false => rfl
        | true => exact absurd ((hp a (List.mem_cons_self _ _)).1 hq) ha
      simp only [List.find?, hpa]
      refine ih ?_ fun i hi => hp i (List.mem_cons_of_mem _ hi)
      rcases List.mem_cons.1 hn with h | h
      · exact absurd h.symm ha
      · exact h

theorem find_none (p : Nat → Bool) (l : List Nat) (hp : ∀ i ∈ l, p i = false) :
    l.find? p = none := by
  induction l with
  | nil => rfl
  | cons a r ih =>
    simp only [List.find?, hp a (List.mem_cons_self _ _)]
    exact ih fun i hi => hp i (List.mem_cons_of_mem _ hi)

theorem argAt_repr (args : List JSVal) (n : Nat) :
    argAt args (Nat.repr n).data = args.getD n .undefined := by
  unfold argAt
  by_cases h : n < args.length
  · rw [find_unique _ n (List.range args.length) (List.mem_range.2 h)]
    intro i _
    simp only [decide_eq_true_eq]
    exact ⟨repr_data_injective i n, fun e => by rw [e]⟩
  · rw [find_none]
    · simp only [List.getD_eq_getElem?_getD]
      rw [List.getElem?_eq_none (by omega)]
      rfl
    · intro i hi
      simp only [decide_eq_false_iff_not]
      intro e
      have := repr_data_injective i n e
      have := List.mem_range.1 hi
      omega

theorem argAt_undefined (args : List JSVal) (ds : List Char)
    (h : ∀ n, (Nat.repr n).data = ds → args.getD n .undefined = .undefined) :
    argAt args ds = .undefined := by
  unfold argAt
  split
  · rename_i i hi
    have := List.find?_some hi
    simp only [decide_eq_true_eq] at this
    exact h i this
  · rfl

theorem takeWhile_digits (ds rest : List Char) (hd : ∀ c ∈ ds, c.isDigit = true) :
    (ds ++ '\x7d' :: rest).takeWhile Char.isDigit = ds ∧
      (ds ++ '\x7d' :: rest).dropWhile Char.isDigit = '\x7d' :: rest := by
  induction ds with
  | nil =>
    have : Char.isDigit '\x7d' = false := by decide
    simp [List.takeWhile, List.dropWhile, this]
  | cons d r ih =>
    have hdd := hd d (List.mem_cons_self _ _)
    have := ih fun c hc => hd c (List.mem_cons_of_mem _ hc)
    simp [List.takeWhile, List.dropWhile, hdd, this.1, this.2]

theorem matchPlaceholder_hole (ds rest : List Char) (hne : ds ≠ [])
    (hd : ∀ c ∈ ds, c.isDigit = true) :
    matchPlaceholder ('\x7b' :: ds ++ '\x7d' :: rest) = some ds := by
  obtain ⟨h1, h2⟩ := takeWhile_digits ds rest hd
  cases ds with
  | nil => exact absurd rfl hne
  | cons d r =>
    simp only [List.cons_append] at h1 h2 ⊢
    simp only [matchPlaceholder, h1, h2]

theorem matchPlaceholder_some (s ds : List Char) (h : matchPlaceholder s = some ds) :
    ∃ rest, ds ≠ [] ∧ (∀ c ∈ ds, c.isDigit = true) ∧ s = '\x7b' :: ds ++ '\x7d' :: rest := by
  unfold matchPlaceholder at h
  split at h
  · rename_i cs
    split at h
    · rename_i d r rest h1 h2
      simp only [Option.some.injEq] at h
      subst h
      refine ⟨rest, by simp, ?_, ?_⟩
      · intro c hc
        rw [← h1] at hc
        exact (List.mem_takeWhile_imp hc)
      · have := List.takeWhile_append_dropWhile Char.isDigit cs
        rw [h1, h2] at this
        rw [← this]
        simp
    · exact absurd h (by simp)
  · exact absurd h (by simp)

theorem formatFrom_skip (args : List JSVal) (xs rest : List Char) :
    formatFrom args xs.length (xs ++ rest) = formatFrom args 0 rest := by
  induction xs with
  | nil => simp
  | cons x r ih => simpa [formatFrom] using ih

theorem formatFrom_hole (args : List JSVal) (ds rest : List Char) (hne : ds ≠ [])
    (hd : ∀ c ∈ ds, c.isDigit = true) :
    formatFrom args 0 ('\x7b' :: ds ++ '\x7d' :: rest) =
      replacer args ('\x7b' :: ds ++ ['\x7d']) ds ++ formatFrom args 0 rest := by
  have hm := matchPlaceholder_hole ds rest hne hd
  have hs := formatFrom_skip args (ds ++ ['\x7d']) rest
  simp only [List.length_append, List.length_singleton, List.append_assoc,
    List.singleton_append] at hs
  simp only [List.cons_append] at hm ⊢
  rw [formatFrom, hm]
  simp only [hs, List.cons_append]

theorem formatFrom_keep (args : List JSVal) (c : Char) (cs : List Char)
    (h : matchPlaceholder (c :: cs) = none) :
    formatFrom args 0 (c :: cs) = c :: formatFrom args 0 cs := by
  rw [formatFrom, h]

theorem formatFrom_plain (args : List JSVal) (pre rest : List Char) (h : '\x7b' ∉ pre) :
    formatFrom args 0 (pre ++ rest) = pre ++ formatFrom args 0 rest := by
  induction pre with
  | nil => rfl
  | cons c r ih =>
    have hc : c ≠ '\x7b' := fun e => h (by simp [e])
    have hm : matchPlaceholder (c :: (r ++ rest)) = none := by
      unfold matchPlaceholder
      split
      · rename_i heq
        simp only [List.cons.injEq] at heq
        exact absurd heq.1 hc
      · rfl
    simp only [List.cons_append]
    rw [formatFrom_keep args c _ hm, ih fun hr => h (List.mem_cons_of_mem _ hr)]


theorem format_hole_defined (args : List JSVal) (n : Nat) (rest : String)
    (h : (args.getD n .undefined).isUndefined = false) :
    format ("\x7b" ++ toString n ++ "\x7d" ++ rest) args =
      (args.getD n .undefined).toStr ++ format rest args := by
  apply String.ext
  have hr : (toString n).data = (Nat.repr n).data := rfl
  have hb1 : ("\x7b" : String).data = ['\x7b'] := rfl
  have hb2 : ("\x7d" : String).data = ['\x7d'] := rfl
  simp only [format, String.data_append, hr, hb1, hb2, List.append_assoc, List.singleton_append]
  have := formatFrom_hole args (Nat.repr n).data rest.data (by rw [repr_data]; exact toDigits_ne_nil n)
    (by rw [repr_data]; exact toDigits_isDigit n)
  rw [this, replacer, argAt_repr, h]
  simp

theorem format_hole_kept (args : List JSVal) (ds rest : String) (hne : ds ≠ "")
    (hd : ∀ c ∈ ds.data, c.isDigit = true)
    (h : ∀ n : Nat, toString n = ds → (args.getD n .undefined).isUndefined = true) :
    format ("\x7b" ++ ds ++ "\x7d" ++ rest) args = "\x7b" ++ ds ++ "\x7d" ++ format rest args := by
  apply String.ext
  have hb1 : ("\x7b" : String).data = ['\x7b'] := rfl
  have hb2 : ("\x7d" : String).data = ['\x7d'] := rfl
  simp only [format, String.data_append, hb1, hb2, List.append_assoc, List.singleton_append]
  have hne' : ds.data ≠ [] := fun e => hne (String.ext e)
  have := formatFrom_hole args ds.data rest.data hne' hd
  rw [this, replacer]
  have hu : argAt args ds.data = .undefined := by
    apply argAt_undefined
    intro n hn
    have h1 := h n (String.ext hn)
    cases hv : args.getD n .undefined <;> simp_all [JSVal.isUndefined]
  simp [hu, JSVal.isUndefined]

theorem format_keep (args : List JSVal) (c : Char) (rest : String)
    (h : ¬ ∃ ds tail : String, ds ≠ "" ∧ (∀ d ∈ ds.data, d.isDigit = true) ∧
      String.singleton c ++ rest = "\x7b" ++ ds ++ "\x7d" ++ tail) :
    format (String.singleton c ++ rest) args = String.singleton c ++ format rest args := by
  apply String.ext
  have hc : (String.singleton c).data = [c] := rfl
  simp only [format, String.data_append, hc, List.singleton_append]
  apply formatFrom_keep
  cases hm : matchPlaceholder (c :: rest.data) with
  | none => rfl
  | some ds =>
    exfalso
    obtain ⟨tail, hne, hd, he⟩ := matchPlaceholder_some _ _ hm
    refine h ⟨⟨ds⟩, ⟨tail⟩, ?_, hd, ?_⟩
    · intro e
      exact hne (congrArg String.data e)
    · apply String.ext
      have hb1 : ("\x7b" : String).data = ['\x7b'] := rfl
      have hb2 : ("\x7d" : String).data = ['\x7d'] := rfl
      simp only [String.data_append, hc, hb1, hb2, List.singleton_append, List.append_assoc]
      simpa using he

set_option maxRecDepth 100000 in
theorem modal_template_split :
    modal_template = modalHead ++ "\x7b0\x7d" ++ modalMiddle ++ "\x7b1\x7d" ++ modalTail := by
  rfl

theorem format_plain (args : List JSVal) (pre rest : String) (h : '\x7b' ∉ pre.data) :
    format (pre ++ rest) args = pre ++ format rest args := by
  apply String.ext
  simp only [format, String.data_append]
  exact formatFrom_plain args pre.data rest.data h

set_option maxRecDepth 100000 in
theorem format_modal_template (title content : String) :
    format modal_template [.str title, .str content] =
      modalHead ++ title ++ modalMiddle ++ content ++ modalTail := by
  have h0 := format_hole_defined [.str title, .str content] 0
  have h1 := format_hole_defined [.str title, .str content] 1
  have e0 : ("\x7b" ++ toString 0 ++ "\x7d" : String) = "\x7b0\x7d" := by decide
  have e1 : ("\x7b" ++ toString 1 ++ "\x7d" : String) = "\x7b1\x7d" := by decide
  rw [e0] at h0
  rw [e1] at h1
  rw [modal_template_split]
  simp only [String.append_assoc]
  rw [format_plain _ modalHead _ (by decide), h0 _ (by rfl),
    format_plain _ modalMiddle _ (by decide), h1 _ (by rfl)]
  have ht : format modalTail [.str title, .str content] = modalTail := by
    have := format_plain [.str title, .str content] modalTail "" (by decide)
    simpa [format, formatFrom] using this
  rw [ht]
  simp [JSVal.toStr, String.append_assoc]

/-! ## Writing an update into the page: helper lemmas -/

theorem foldl_inventory (f : JSVal → String) (xs : List JSVal) (p : Page) :
    xs.foldl (fun q x => { q with inventory := q.inventory ++ [f x] }) p =
      { p with inventory := p.inventory ++ xs.map f } := by
  induction xs generalizing p with
  | nil => simp
  | cons x r ih => simp [List.foldl, ih]

theorem foldl_stats (f : JSVal → String) (xs : List JSVal) (p : Page) :
    xs.foldl (fun q x => { q with stats := q.stats ++ [f x] }) p =
      { p with stats := p.stats ++ xs.map f } := by
  induction xs generalizing p with
  | nil => simp
  | cons x r ih => simp [List.foldl, ih]

theorem foldl_actionOptions (f : JSVal → String) (xs : List JSVal) (p : Page) :
    xs.foldl (fun q x => { q with actionOptions := q.actionOptions ++ [f x] }) p =
      { p with actionOptions := p.actionOptions ++ xs.map f } := by
  induction xs generalizing p with
  | nil => simp
  | cons x r ih => simp [List.foldl, ih]

theorem updateInventory_eq (v : JSVal) (p : Page) :
    updateInventory v p =
      match v.items with
      | .throws => ({ p with inventory := [] }, .typeError)
      | .outside => ({ p with inventory := [] }, .outside)
      | .visits xs => ({ p with inventory := xs.map fun x => li x.toStr }, .normal) := by
  unfold updateInventory
  cases v.items with
  | throws => rfl
  | outside => rfl
  | visits xs => simp [foldl_inventory]

theorem updatePlayerStats_eq (v : JSVal) (p : Page) :
    updatePlayerStats v p =
      match v.items with
      | .throws => ({ p with stats := [] }, .typeError)
      | .outside => ({ p with stats := [] }, .outside)
      | .visits xs => ({ p with stats := xs.map fun x => li x.toStr }, .normal) := by
  unfold updatePlayerStats
  cases v.items with
  | throws => rfl
  | outside => rfl
  | visits xs => simp [foldl_stats]

theorem updateActionOptions_eq (v : JSVal) (p : Page) :
    updateActionOptions v p =
      match v.items with
      | .throws => ({ p with actionOptions := [] }, .typeError)
      | .outside => ({ p with actionOptions := [] }, .outside)
      | .visits xs => ({ p with actionOptions := xs.map fun x => li x.toStr }, .normal) := by
  unfold updateActionOptions
  cases v.items with
  | throws => rfl
  | outside => rfl
  | visits xs => simp [foldl_actionOptions]

theorem updateRestAndHealButtons_eq (r h : JSVal) (p : Page) :
    updateRestAndHealButtons r h p =
      { p with restDisabled := !r.truthy, healDisabled := !h.truthy } := by
  unfold updateRestAndHealButtons
  cases r.truthy <;> cases h.truthy <;> rfl

theorem processGameUpdate_untouched (gu : JSVal) (p : Page) :
    Page.untouched p (processGameUpdate gu p).1 := by
  unfold processGameUpdate
  cases gu.getProp "player_message" with
  | none => simp [Page.untouched]
  | some m =>
    simp only [andThen, updateInventory_eq, updatePlayerStats_eq, updateActionOptions_eq,
      updateRestAndHealButtons_eq, generateImage, ite_self, addUserMessage]
    cases (gu.prop "inventory").items with
    | throws => simp [Page.untouched]
    | outside => simp [Page.untouched]
    | visits inv =>
      cases (gu.prop "player_stats").items with
      | throws => simp [Page.untouched]
      | outside => simp [Page.untouched]
      | visits st =>
        cases (gu.prop "action_options").items <;> simp [Page.untouched]

theorem processGameUpdate_normal (gu : JSVal) (p : Page) (m : JSVal) (inv st op : List JSVal)
    (hm : gu.getProp "player_message" = some m)
    (hi : (gu.prop "inventory").items = .visits inv)
    (hs : (gu.prop "player_stats").items = .visits st)
    (ho : (gu.prop "action_options").items = .visits op) :
    processGameUpdate gu p =
      ({ p with
          chat := p.chat ++ [.bubble (userBubble m.toStr)]
          inventory := inv.map fun x => li x.toStr
          stats := st.map fun x => li x.toStr
          actionOptions := op.map fun x => li x.toStr
          restDisabled := !(gu.prop "can_rest").truthy
          healDisabled := !(gu.prop "can_heal").truthy }, .normal) := by
  unfold processGameUpdate
  simp only [hm, andThen, updateInventory_eq, updatePlayerStats_eq, updateActionOptions_eq,
    updateRestAndHealButtons_eq, generateImage, ite_self, addUserMessage, hi, hs, ho]

theorem processGameUpdate_normal_inv (gu : JSVal) (p : Page)
    (h : (processGameUpdate gu p).2 = .normal) :
    ∃ m inv st op, gu.getProp "player_message" = some m ∧
      (gu.prop "inventory").items = .visits inv ∧
      (gu.prop "player_stats").items = .visits st ∧
      (gu.prop "action_options").items = .visits op := by
  unfold processGameUpdate at h
  cases hm : gu.getProp "player_message" with
  | none => simp [hm] at h
  | some m =>
    simp only [hm, andThen, updateInventory_eq, updatePlayerStats_eq, updateActionOptions_eq] at h
    cases hi : (gu.prop "inventory").items with
    | throws => simp [hi] at h
    | outside => simp [hi] at h
    | visits inv =>
      cases hs : (gu.prop "player_stats").items with
      | throws => simp [hi, hs] at h
      | outside => simp [hi, hs] at h
      | visits st =>
        cases ho : (gu.prop "action_options").items with
        | throws => simp [hi, hs, ho] at h
        | outside => simp [hi, hs, ho] at h
        | visits op => exact ⟨m, inv, st, op, rfl, rfl, rfl, rfl⟩

/-- Whenever `processGameUpdate` does not return, the two buttons are as they
were. -/
theorem processGameUpdate_stopped_buttons (gu : JSVal) (p : Page)
    (h : (processGameUpdate gu p).2 ≠ .normal) :
    (processGameUpdate gu p).1.restDisabled = p.restDisabled ∧
      (processGameUpdate gu p).1.healDisabled = p.healDisabled := by
  unfold processGameUpdate at h ⊢
  cases hm : gu.getProp "player_message" with
  | none => simp
  | some m =>
    simp only [hm, andThen, updateInventory_eq, updatePlayerStats_eq, updateActionOptions_eq,
      updateRestAndHealButtons_eq, generateImage, ite_self, addUserMessage] at h ⊢
    cases hi : (gu.prop "inventory").items with
    | throws => simp
    | outside => simp
    | visits inv =>
      cases hs : (gu.prop "player_stats").items with
      | throws => simp
      | outside => simp
      | visits st =>
        cases ho : (gu.prop "action_options").items with
        | throws => simp
        | outside => simp
        | visits op => simp [hi, hs, ho] at h

/-! ## Category confirmation: helper lemmas -/

theorem lookupSaved_setProp (k k' v : String) (saved : List (String × String)) :
    lookupSaved k (setProp k' v saved) = if k' = k then some v else lookupSaved k saved := by
  induction saved with
  | nil => simp [setProp, lookupSaved]
  | cons a r ih =>
    obtain ⟨a1, a2⟩ := a
    by_cases h1 : a1 = k'
    · by_cases h2 : k' = k
      · simp [setProp, lookupSaved, h1, h2]
      · have h3 : ¬ a1 = k := by rw [h1]; exact h2
        simp [setProp, lookupSaved, h1, h2]
    · simp only [setProp, h1, if_false, lookupSaved, ih]
      by_cases h3 : a1 = k
      · have h2 : ¬ k' = k := by rw [← h3]; exact fun e => h1 e.symm
        simp [h2, h3]
      · simp [h3]

theorem saveSelections_complete (selects : List Select) (saved : List (String × String))
    (h : ∀ s ∈ selects, s.value ≠ none) : (saveSelections selects saved).2 = none := by
  induction selects generalizing saved with
  | nil => rfl
  | cons s r ih =>
    cases hv : s.value with
    | none => exact absurd hv (h s (List.mem_cons_self _ _))
    | some v =>
      simp only [saveSelections, hv]
      exact ih _ fun t ht => h t (List.mem_cons_of_mem _ ht)

theorem saveSelections_other (selects : List Select) (saved : List (String × String))
    (k : String) (hk : k ∉ selects.map Select.id) :
    lookupSaved k (saveSelections selects saved).1 = lookupSaved k saved := by
  induction selects generalizing saved with
  | nil => rfl
  | cons s r ih =>
    simp only [List.map_cons, List.mem_cons, not_or] at hk
    cases hv : s.value with
    | none => simp only [saveSelections, hv]
    | some v =>
      simp only [saveSelections, hv]
      rw [ih _ hk.2, lookupSaved_setProp]
      have hne : ¬ s.id = k := fun e => hk.1 e.symm
      simp only [hne, if_false]

theorem saveSelections_lookup (selects : List Select) (saved : List (String × String))
    (hn : (selects.map Select.id).Nodup) (h : ∀ s ∈ selects, s.value ≠ none) :
    ∀ s ∈ selects, lookupSaved s.id (saveSelections selects saved).1 = s.value := by
  induction selects generalizing saved with
  | nil => intro s hs; simp at hs
  | cons a r ih =>
    simp only [List.map_cons, List.nodup_cons] at hn
    cases hv : a.value with
    | none => exact absurd hv (h a (List.mem_cons_self _ _))
    | some v =>
      intro s hs
      simp only [saveSelections, hv]
      rcases List.mem_cons.1 hs with rfl | hs
      · rw [saveSelections_other r _ _ hn.1, lookupSaved_setProp, hv]
        simp
      · exact ih _ hn.2 (fun t ht => h t (List.mem_cons_of_mem _ ht)) s hs

theorem handleCategorySubmission_complete (p : Page) (h : ∀ s ∈ p.selects, s.value ≠ none) :
    handleCategorySubmission p =
      addAIMessage
        (.str ("You have selected the following parameters: " ++
          ", ".intercalate ((saveSelections p.selects p.saved_categories).1.map Prod.snd)))
        aiOptions
        { p with
          saved_categories := (saveSelections p.selects p.saved_categories).1
          selects := p.selects.map fun s => { s with disabled := true }
          confirmButton := false } := by
  have h2 := saveSelections_complete p.selects p.saved_categories h
  unfold handleCategorySubmission
  split
  · rename_i saved id heq
    rw [heq] at h2
    exact absurd h2 (by simp)
  · rename_i saved heq
    rw [heq]

theorem step_keeps_saved (p : Page) (ev : Event) (h : p.confirmButton = false) :
    (step p ev).saved_categories = p.saved_categories ∧ (step p ev).confirmButton = false := by
  cases ev with
  | typeInput text => exact ⟨rfl, h⟩
  | chatSubmission =>
    simp only [step, chatSubmission]
    split <;> simp [addUserMessage, h]
  | timerFires =>
    simp only [step, timerFires]
    split <;> simp [simulateAIResponse, addAIMessage, addAIMessageSelector, h]
  | optionClick i j =>
    simp only [step, optionClick]
    split
    · split
      · simp only [simulateAIResponse, chatSubmission]
        split <;> simp [addUserMessage, h]
      · exact ⟨rfl, h⟩
    · exact ⟨rfl, h⟩
  | gameUpdate output formattedOutput =>
    obtain ⟨-, -, -, hc, hsv, -, -⟩ :=
      processGameUpdate_untouched formattedOutput (addAIMessage output aiOptions p)
    simp only [step, simulateAIResponseResume]
    rw [hc, hsv]
    exact ⟨rfl, h⟩
  | toggleSidebar => exact ⟨rfl, h⟩
  | clearChat => exact ⟨rfl, h⟩
  | choose id value => exact ⟨rfl, h⟩
  | confirmParameters => simp [step, h]

theorem run_keeps_saved (events : List Event) (p : Page) (h : p.confirmButton = false) :
    (run p events).saved_categories = p.saved_categories := by
  induction events generalizing p with
  | nil => rfl
  | cons ev r ih =>
    have hs := step_keeps_saved p ev h
    show (run (step p ev) r).saved_categories = p.saved_categories
    rw [ih (step p ev) hs.2, hs.1]




theorem saveSelections_append (before rest : List Select) (saved : List (String × String))
    (h : ∀ t ∈ before, t.value ≠ none) :
    saveSelections (before ++ rest) saved =
      saveSelections rest (recordSelections (selections before) saved) := by
  induction before generalizing saved with
  | nil => rfl
  | cons a r ih =>
    cases hv : a.value with
    | none => exact absurd hv (h a (List.mem_cons_self _ _))
    | some v =>
      have e1 : saveSelections (a :: r ++ rest) saved =
          saveSelections (r ++ rest) (setProp a.id v saved) := by
        simp only [List.cons_append, saveSelections, hv]
        rfl
      rw [e1, ih _ fun t ht => h t (List.mem_cons_of_mem _ ht)]
      simp [selections, recordSelections, hv]

theorem handleCategorySubmission_incomplete (p : Page) (before after : List Select) (s : Select)
    (hsplit : p.selects = before ++ s :: after) (hb : ∀ t ∈ before, t.value ≠ none)
    (hs : s.value = none) :
    handleCategorySubmission p =
      createModal "Error" ("Category \"" ++ s.id ++ "\" has no selected option.")
        { p with saved_categories := recordSelections (selections before) p.saved_categories } := by
  unfold handleCategorySubmission
  rw [hsplit, saveSelections_append before (s :: after) p.saved_categories hb]
  simp only [saveSelections, hs]

theorem handleCategorySubmission_selects (p : Page) :
    (handleCategorySubmission p).selects = p.selects ∨
      (handleCategorySubmission p).selects = p.selects.map fun s => { s with disabled := true } := by
  unfold handleCategorySubmission
  split
  · left; rfl
  · right; rfl

theorem step_keeps_selected (p : Page) (ev : Event) (h : ∀ s ∈ p.selects, s.value ≠ none) :
    ∀ s ∈ (step p ev).selects, s.value ≠ none := by
  cases ev with
  | typeInput text => exact h
  | chatSubmission =>
    simp only [step, chatSubmission]
    split
    · exact h
    · exact h
  | timerFires =>
    simp only [step, timerFires]
    split
    · exact h
    · exact h
  | optionClick i j =>
    simp only [step, optionClick]
    split
    · split
      · simp only [simulateAIResponse, chatSubmission]
        split
        · exact h
        · exact h
      · exact h
    · exact h
  | gameUpdate output formattedOutput =>
    obtain ⟨-, -, hsel, -, -, -, -⟩ :=
      processGameUpdate_untouched formattedOutput (addAIMessage output aiOptions p)
    simp only [step, simulateAIResponseResume]
    rw [hsel]
    exact h
  | toggleSidebar => exact h
  | clearChat => exact h
  | choose id value =>
    intro s hs
    simp only [step, List.mem_map] at hs
    obtain ⟨t, ht, rfl⟩ := hs
    split
    · simp
    · exact h t ht
  | confirmParameters =>
    simp only [step]
    split
    · rcases handleCategorySubmission_selects p with e | e
      · rw [e]; exact h
      · rw [e]
        intro s hs
        simp only [List.mem_map] at hs
        obtain ⟨t, ht, rfl⟩ := hs
        exact h t ht
    · exact h

theorem run_keeps_selected (events : List Event) (p : Page)
    (h : ∀ s ∈ p.selects, s.value ≠ none) : ∀ s ∈ (run p events).selects, s.value ≠ none := by
  induction events generalizing p with
  | nil => exact h
  | cons ev r ih => exact ih (step p ev) (step_keeps_selected p ev h)

/-! ## List markup: helper lemmas -/

theorem tokenize_plain (cs rest : List Char) (h : ∀ c ∈ cs, isMarkupChar c = false) :
    tokenize (cs ++ rest) = (tokenize rest).map fun ts => cs.map MarkupToken.char ++ ts := by
  induction cs with
  | nil => simp
  | cons c r ih =>
    have hc := h c (List.mem_cons_self _ _)
    have hne : c ≠ '<' := by
      intro e
      rw [e] at hc
      exact absurd hc (by decide)
    have hstep : tokenize (c :: (r ++ rest)) =
        (tokenize (r ++ rest)).map fun ts => MarkupToken.char c :: ts := by
      rw [tokenize]
      · simp [hc]
      · intro r' e _
        exact hne e
      · intro r' e _
        exact hne e
    rw [List.cons_append, hstep, ih fun d hd => h d (List.mem_cons_of_mem _ hd)]
    cases tokenize rest <;> simp

theorem buildNodes_chars (cs : List Char) (rest : List MarkupToken) (done : List DomNode)
    (t : List Char) :
    buildNodes (cs.map MarkupToken.char ++ rest) done (some t) =
      buildNodes rest done (some (t ++ cs)) := by
  induction cs generalizing t with
  | nil => simp
  | cons c r ih => simp [buildNodes, ih]

theorem parseListMarkup_li (text : String) (h : plainText text) :
    parseListMarkup (li text) = some [.li text] := by
  have hd : (li text).data = '<' :: 'l' :: 'i' :: '>' :: (text.data ++ ['<', '/', 'l', 'i', '>']) := by
    simp [li, String.data_append]
  unfold parseListMarkup
  rw [hd, tokenize, tokenize_plain text.data _ h]
  have ht : tokenize ['<', '/', 'l', 'i', '>'] = some [.liClose] := by decide
  rw [ht]
  simp only [Option.map_some', buildNodes, buildNodes_chars, List.nil_append]

theorem childrenOf_li (texts : List String) (h : ∀ t ∈ texts, plainText t) :
    childrenOf (texts.map li) = some (texts.map DomNode.li) := by
  induction texts with
  | nil => rfl
  | cons t r ih =>
    simp only [List.map_cons, childrenOf, parseListMarkup_li t (h t (List.mem_cons_self _ _)),
      ih fun u hu => h u (List.mem_cons_of_mem _ hu)]
    rfl

/-! ## The claims -/

/-- C1, as stated, fails: on an update object that carries only a message,
`processGameUpdate` ends with a `TypeError`, and by then the chat has gained a
bubble and the inventory list has lost its entry. -/
theorem processGameUpdate_not_atomic :
    (processGameUpdate messageOnlyUpdate stockedPage).2 = .typeError ∧
      (processGameUpdate messageOnlyUpdate stockedPage).1.chat =
        [.bubble (userBubble "You wake up.")] ∧
      stockedPage.chat = [] ∧
      (processGameUpdate messageOnlyUpdate stockedPage).1.inventory = [] ∧
      stockedPage.inventory = [li "sword"] ∧
      (processGameUpdate messageOnlyUpdate stockedPage).1 ≠ stockedPage := by
  decide

/-- C1, amended: `processGameUpdate` runs its steps in order and keeps what
was done before the failing one.  For an update object whose `inventory` is
missing, the message has been appended to the chat and the inventory list
emptied; if `inventory` is an array and `player_stats` is missing, the
inventory shows the update's items and the stats list is emptied; if both are
arrays and `action_options` is missing, inventory and stats show the update's
values and the options list is emptied.  Everything else, the rest and heal
button states included, is as before the call. -/
theorem processGameUpdate_failure_keeps_earlier_steps (fs : List (String × JSVal)) (p : Page) :
    (lookupField "inventory" fs = .undefined →
      processGameUpdate (.obj fs) p =
        ({ p with
            chat := p.chat ++ [.bubble (userBubble (lookupField "player_message" fs).toStr)]
            inventory := [] }, .typeError)) ∧
    (∀ inv : List JSVal, lookupField "inventory" fs = .arr inv →
      lookupField "player_stats" fs = .undefined →
      processGameUpdate (.obj fs) p =
        ({ p with
            chat := p.chat ++ [.bubble (userBubble (lookupField "player_message" fs).toStr)]
            inventory := inv.map fun x => li x.toStr
            stats := [] }, .typeError)) ∧
    (∀ inv st : List JSVal, lookupField "inventory" fs = .arr inv →
      lookupField "player_stats" fs = .arr st →
      lookupField "action_options" fs = .undefined →
      processGameUpdate (.obj fs) p =
        ({ p with
            chat := p.chat ++ [.bubble (userBubble (lookupField "player_message" fs).toStr)]
            inventory := inv.map fun x => li x.toStr
            stats := st.map fun x => li x.toStr
            actionOptions := [] }, .typeError)) := by
  refine ⟨?_, ?_, ?_⟩
  · intro hi
    unfold processGameUpdate
    simp only [JSVal.getProp, JSVal.prop, Option.getD_some, hi, andThen, updateInventory_eq,
      JSVal.items, addUserMessage]
  · intro inv hi hs
    unfold processGameUpdate
    simp only [JSVal.getProp, JSVal.prop, Option.getD_some, hi, hs, andThen, updateInventory_eq,
      updatePlayerStats_eq, JSVal.items, addUserMessage]
  · intro inv st hi hs ho
    unfold processGameUpdate
    simp only [JSVal.getProp, JSVal.prop, Option.getD_some, hi, hs, ho, andThen,
      updateInventory_eq, updatePlayerStats_eq, updateActionOptions_eq, JSVal.items,
      addUserMessage]

/-- Witness for C1, amended: the message-only update on the stocked page. -/
theorem processGameUpdate_failure_keeps_earlier_steps_witness :
    lookupField "inventory" [("player_message", JSVal.str "You wake up.")] = .undefined ∧
      processGameUpdate messageOnlyUpdate stockedPage =
        ({ stockedPage with
            chat := stockedPage.chat ++ [.bubble (userBubble "You wake up.")]
            inventory := [] }, .typeError) :=
  ⟨rfl,
    (processGameUpdate_failure_keeps_earlier_steps
      [("player_message", JSVal.str "You wake up.")] stockedPage).1 rfl⟩

/-- C2: a payload that lacks one of the eight fields of the schema is rejected.
If it is an object without that key, one of the reported issues sits at the
path of that field, with code `invalid_type` and the message `Required`; a
payload that is no object at all is rejected as a whole. -/
theorem missing_field_is_rejected :
    (∀ (fs : List (String × JSVal)) (k : String), k ∈ gameUpdateFields →
      (∀ v, (k, v) ∉ fs) →
      (gameUpdateParserZodObj.safeParse (.obj fs)).isSuccess = false ∧
        ({ code := .invalid_type, path := [.key k], message := "Required" } : ZodIssue) ∈
          (gameUpdateParserZodObj.safeParse (.obj fs)).issues) ∧
    (∀ payload : JSVal, (∀ fs, payload ≠ .obj fs) →
      (gameUpdateParserZodObj.safeParse payload).isSuccess = false) := by
  constructor
  · intro fs k hk habs
    have hu := lookupField_absent k fs habs
    have hmem : ({ code := .invalid_type, path := [.key k], message := "Required" } : ZodIssue) ∈
        (ZodType.parse gameUpdateParserZodObj [] (.obj fs)).issues := by
      rw [schema_parse_obj]
      simp only [parseShape_cons, parseShape_nil, List.nil_append, List.mem_append]
      simp only [gameUpdateFields, List.mem_cons, List.mem_singleton, List.not_mem_nil,
        or_false] at hk
      rcases hk with rfl | rfl | rfl | rfl | rfl | rfl | rfl | rfl <;>
        simp [hu, ZodType.parse, invalidType]
    have hne : (ZodType.parse gameUpdateParserZodObj [] (.obj fs)).issues ≠ [] :=
      List.ne_nil_of_mem hmem
    rw [safeParse_failure_issues _ hne]
    exact ⟨rfl, hmem⟩
  · intro payload hno
    have hne : (ZodType.parse gameUpdateParserZodObj [] payload).issues ≠ [] := by
      cases payload with
      | obj fs => exact absurd rfl (hno fs)
      | _ => simp [gameUpdateParserZodObj, ZodType.parse]
    rw [safeParse_failure_issues _ hne]
    rfl

/-- Witness for C2: a payload that carries only a message lacks
`action_options`. -/
theorem missing_field_is_rejected_witness :
    "action_options" ∈ gameUpdateFields ∧
      (gameUpdateParserZodObj.safeParse messageOnlyUpdate).isSuccess = false ∧
      ({ code := .invalid_type, path := [.key "action_options"], message := "Required" } :
          ZodIssue) ∈ (gameUpdateParserZodObj.safeParse messageOnlyUpdate).issues :=
  ⟨by decide,
    missing_field_is_rejected.1 [("player_message", JSVal.str "You wake up.")] "action_options"
      (by decide) (by simp)⟩

/-- C3, as stated, fails: a well-typed payload with two action options is
accepted. -/
theorem two_options_accepted :
    (gameUpdateParserZodObj.safeParse twoOptionsUpdate).isSuccess = true ∧
      (twoOptionsUpdate.prop "action_options").items.map List.length = some 2 := by
  decide

/-- C3, amended: the schema puts no bound on the number of action options.
An object payload is accepted exactly when its eight fields are well typed
(the three stats being numbers other than `NaN`), `action_options` being a
list of strings of any length; so a well-typed payload is accepted with any
list of options. -/
theorem action_options_length_unconstrained :
    (∀ fs : List (String × JSVal),
      (gameUpdateParserZodObj.safeParse (.obj fs)).isSuccess = true ↔
        (∃ s, lookupField "player_message" fs = .str s) ∧
        (∃ ss : List String, lookupField "inventory" fs = .arr (ss.map JSVal.str)) ∧
        (∃ h e g : String, lookupField "player_stats" fs =
          .arr [.num (.value h), .num (.value e), .num (.value g)]) ∧
        (∃ ss : List String, lookupField "action_options" fs = .arr (ss.map JSVal.str)) ∧
        (∃ b, lookupField "can_rest" fs = .bool b) ∧
        (∃ b, lookupField "can_heal" fs = .bool b) ∧
        (∃ b, lookupField "generate_image" fs = .bool b) ∧
        (∃ s, lookupField "image_prompt" fs = .str s)) ∧
    (∀ (message : String) (inventory : List String) (health energy gold : Int)
        (options : List String) (canRest canHeal generateImg : Bool) (imagePrompt : String),
      gameUpdateParserZodObj.safeParse
          (gameUpdateOf message inventory health energy gold options canRest canHeal
            generateImg imagePrompt) =
        .success (gameUpdateOf message inventory health energy gold options canRest canHeal
          generateImg imagePrompt)) := by
  constructor
  · intro fs
    constructor
    · intro h
      rw [← schema_issues_nil_iff]
      by_contra hne
      rw [safeParse_failure_issues _ hne] at h
      exact absurd h (by simp [SafeParse.isSuccess])
    · rintro ⟨⟨msg, h1⟩, ⟨inv, h2⟩, ⟨h, e, g, h3⟩, ⟨opts, h4⟩, ⟨r, h5⟩, ⟨hl, h6⟩, ⟨gi, h7⟩,
        ⟨ip, h8⟩⟩
      rw [safeParse_typed fs msg inv h e g opts r hl gi ip h1 h2 h3 h4 h5 h6 h7 h8]
      rfl
  · intro message inventory health energy gold options canRest canHeal generateImg imagePrompt
    exact safeParse_typed _ message inventory (toString health) (toString energy)
      (toString gold) options canRest canHeal generateImg imagePrompt rfl rfl rfl rfl rfl rfl
      rfl rfl

/-- C4, as stated, fails: a payload with health 150, energy -5 and gold -10
is accepted, and `processGameUpdate` shows these three values as given. -/
theorem out_of_range_stats_shown :
    (gameUpdateParserZodObj.safeParse outOfRangeUpdate).isSuccess = true ∧
      (processGameUpdate (gameUpdateParserZodObj.safeParse outOfRangeUpdate).data
          blankPage).1.stats = ["<li>150</li>", "<li>-5</li>", "<li>-10</li>"] := by
  decide

/-- C4, amended: for every payload the schema accepts, `player_stats` holds
three numbers other than `NaN`, `processGameUpdate` returns, and the stats
list shows these three numbers exactly as they print, in order, neither
checked against a range nor clamped. -/
theorem accepted_stats_shown_as_given (payload data : JSVal) (p : Page)
    (hs : gameUpdateParserZodObj.safeParse payload = .success data) :
    ∃ h e g : String,
      payload.prop "player_stats" = .arr [.num (.value h), .num (.value e), .num (.value g)] ∧
      (processGameUpdate data p).2 = .normal ∧
      (processGameUpdate data p).1.stats =
        ["<li>" ++ h ++ "</li>", "<li>" ++ e ++ "</li>", "<li>" ++ g ++ "</li>"] := by
  obtain ⟨fs, msg, inv, h, e, g, opts, r, hl, gi, ip, rfl, -, -, h3, -, -, -, -, -, rfl⟩ :=
    safeParse_success_inv payload data hs
  refine ⟨h, e, g, ?_, ?_, ?_⟩
  · simp [JSVal.prop, JSVal.getProp, h3]
  · rw [processGameUpdate_normal (gameUpdateWith msg inv h e g opts r hl gi ip) p (.str msg)
      (inv.map JSVal.str) [.num (.value h), .num (.value e), .num (.value g)]
      (opts.map JSVal.str) rfl rfl rfl rfl]
  · rw [processGameUpdate_normal (gameUpdateWith msg inv h e g opts r hl gi ip) p (.str msg)
      (inv.map JSVal.str) [.num (.value h), .num (.value e), .num (.value g)]
      (opts.map JSVal.str) rfl rfl rfl rfl]
    simp [JSVal.toStr, JSNum.toStr, li]

/-- Witness for C4, amended: an update whose stats are `1e+21`, `1.5` and
`Infinity`, on the blank page. -/
theorem accepted_stats_shown_as_given_witness :
    ∃ h e g : String,
      (gameUpdateWith "Strange forces." [] "1e+21" "1.5" "Infinity" ["run", "hide", "fight"]
          true true false "").prop "player_stats" =
        .arr [.num (.value h), .num (.value e), .num (.value g)] ∧
      (processGameUpdate
          (gameUpdateWith "Strange forces." [] "1e+21" "1.5" "Infinity" ["run", "hide", "fight"]
            true true false "") blankPage).2 = .normal ∧
      (processGameUpdate
          (gameUpdateWith "Strange forces." [] "1e+21" "1.5" "Infinity" ["run", "hide", "fight"]
            true true false "") blankPage).1.stats =
        ["<li>" ++ h ++ "</li>", "<li>" ++ e ++ "</li>", "<li>" ++ g ++ "</li>"] :=
  accepted_stats_shown_as_given _ _ blankPage
    (safeParse_typed _ "Strange forces." [] "1e+21" "1.5" "Infinity" ["run", "hide", "fight"]
      true true false "" rfl rfl rfl rfl rfl rfl rfl rfl)

/-- C5, as stated, fails: after `processGameUpdate` has handled an update with
health 0, the player types a text and submits it; the handler appends the
user bubble, and the timer it set appends the AI bubble and its option
buttons. -/
theorem submission_accepted_after_health_zero :
    (processGameUpdate fatalUpdate blankPage).2 = .normal ∧
      (processGameUpdate fatalUpdate blankPage).1.stats = [li "0", li "40", li "3"] ∧
      (run (processGameUpdate fatalUpdate blankPage).1
          [.typeInput "go north", .chatSubmission]).chat =
        (processGameUpdate fatalUpdate blankPage).1.chat ++ [.bubble (userBubble "go north")] ∧
      (run (processGameUpdate fatalUpdate blankPage).1
          [.typeInput "go north", .chatSubmission, .timerFires]).chat =
        (processGameUpdate fatalUpdate blankPage).1.chat ++
          [.bubble (userBubble "go north"),
           .bubble (aiBubble "This is the AI's response to your message: go north"),
           .selector ["AI Option 1", "AI Option 2", "AI Option 3"]] := by
  decide

/-- C5, amended: `processGameUpdate` does not end the game.  After any update,
one with health 0 included, the submit handler treats the input as before:
when the trimmed text is not empty it appends the user bubble, clears the
input and sets the timer for the response; when the trimmed text is empty it
changes nothing.  The timer, when it runs, appends the AI bubble for the
message and the group of three option buttons, and leaves the rest of the
page as it is (its call of `simulateAIResponse` ends in a `ReferenceError`). -/
theorem submission_ignores_health (gameUpdate : JSVal) (p : Page) (text : String) :
    (jsTrim text ≠ "" →
      chatSubmission (step (processGameUpdate gameUpdate p).1 (.typeInput text)) =
        { (processGameUpdate gameUpdate p).1 with
          chat := (processGameUpdate gameUpdate p).1.chat ++ [.bubble (userBubble (jsTrim text))]
          chatInput := ""
          timers := (processGameUpdate gameUpdate p).1.timers ++ [jsTrim text] }) ∧
    (jsTrim text = "" →
      chatSubmission (step (processGameUpdate gameUpdate p).1 (.typeInput text)) =
        step (processGameUpdate gameUpdate p).1 (.typeInput text)) ∧
    (∀ (q : Page) (userMessage : String) (rest : List String), q.timers = userMessage :: rest →
      timerFires q =
        { q with
          timers := rest
          chat := q.chat ++
            [.bubble (aiBubble ("This is the AI's response to your message: " ++ userMessage)),
             .selector ["AI Option 1", "AI Option 2", "AI Option 3"]] }) := by
  refine ⟨?_, ?_, ?_⟩
  · intro h
    simp [chatSubmission, step, h, addUserMessage, JSVal.toStr]
  · intro h
    simp [chatSubmission, step, h]
  · intro q m rest hq
    simp [timerFires, hq, simulateAIResponse, addAIMessage, addAIMessageSelector, aiOptions,
      JSVal.toStr]

/-- Witness for C5, amended: the text `go north` after the fatal update. -/
theorem submission_ignores_health_witness :
    jsTrim "go north" ≠ "" ∧
      chatSubmission (step (processGameUpdate fatalUpdate blankPage).1 (.typeInput "go north")) =
        { (processGameUpdate fatalUpdate blankPage).1 with
          chat := (processGameUpdate fatalUpdate blankPage).1.chat ++
            [.bubble (userBubble (jsTrim "go north"))]
          chatInput := ""
          timers := (processGameUpdate fatalUpdate blankPage).1.timers ++
            [jsTrim "go north"] } :=
  ⟨by decide, (submission_ignores_health fatalUpdate blankPage "go north").1 (by decide)⟩

/-- C6, as stated, fails: for the two items `</li><li>x` and `a`,
`updateInventory` returns and the inventory element holds three list items,
with the texts ``, `x` and `a`. -/
theorem markup_items_give_three_entries :
    markupItems.length = 2 ∧
      (updateInventory (.arr markupItems) stockedPage).2 = .normal ∧
      inventoryChildren (updateInventory (.arr markupItems) stockedPage).1 =
        some [.li "", .li "x", .li "a"] := by
  decide

/-- C6, amended: `updateInventory` on a list of items returns; whatever the
inventory element held before, what it then holds is made of the markup
`<li>item</li>` of each item, in the order of the items, and of nothing else;
a second call with the same list changes nothing.  When no item contains a
character that is markup to the HTML parser (`<`, `&`, NUL, carriage return),
the element holds exactly one list item per item, in order, each with the
item as its text. -/
theorem updateInventory_replaces (items : List JSVal) (p : Page) :
    (updateInventory (.arr items) p).2 = .normal ∧
      (updateInventory (.arr items) p).1 =
        { p with inventory := items.map fun x => "<li>" ++ x.toStr ++ "</li>" } ∧
      updateInventory (.arr items) (updateInventory (.arr items) p).1 =
        updateInventory (.arr items) p ∧
      ((∀ x ∈ items, plainText x.toStr) →
        inventoryChildren (updateInventory (.arr items) p).1 =
            some (items.map fun x => DomNode.li x.toStr) ∧
          ((inventoryChildren (updateInventory (.arr items) p).1).map List.length =
            some items.length)) := by
  have hc : ∀ q : Page, (updateInventory (.arr items) q) =
      ({ q with inventory := items.map fun x => li x.toStr }, .normal) := by
    intro q
    simp [updateInventory_eq, JSVal.items]
  refine ⟨by rw [hc], by rw [hc]; rfl, by simp only [hc], ?_⟩
  intro hplain
  have hch : inventoryChildren (updateInventory (.arr items) p).1 =
      some (items.map fun x => DomNode.li x.toStr) := by
    rw [hc]
    have := childrenOf_li (items.map JSVal.toStr) (by simpa using hplain)
    simpa [inventoryChildren, List.map_map, Function.comp] using this
  exact ⟨hch, by rw [hch]; simp⟩

/-- Witness for C6, amended: a dagger and the number 3, on the stocked page. -/
theorem updateInventory_replaces_witness :
    (∀ x ∈ [JSVal.str "dagger", JSVal.num (.value "3")], plainText x.toStr) ∧
      inventoryChildren
          (updateInventory (.arr [.str "dagger", .num (.value "3")]) stockedPage).1 =
        some [.li "dagger", .li "3"] :=
  ⟨by decide,
    ((updateInventory_replaces [.str "dagger", .num (.value "3")] stockedPage).2.2.2
      (by decide)).1⟩

/-- C8, as stated, fails: an update whose two flags are false but whose
`action_options` is missing makes `processGameUpdate` throw before it reaches
the buttons, and both stay enabled. -/
theorem buttons_untouched_when_update_fails :
    (optionsMissingUpdate.prop "can_rest").truthy = false ∧
      (optionsMissingUpdate.prop "can_heal").truthy = false ∧
      (processGameUpdate optionsMissingUpdate blankPage).2 = .typeError ∧
      (processGameUpdate optionsMissingUpdate blankPage).1.restDisabled = false ∧
      (processGameUpdate optionsMissingUpdate blankPage).1.healDisabled = false := by
  decide

/-- C8, amended: after `updateRestAndHealButtons` the rest button is disabled
exactly when `canRest` is false and the heal button exactly when `canHeal` is
false; neither state depends on the other flag or on the page before.  After
`processGameUpdate` the same holds for the flags `can_rest` and `can_heal` of
the update when `processGameUpdate` returns; when it does not return, both
buttons are as they were before the call. -/
theorem rest_heal_follow_flags (canRest canHeal : Bool) (p : Page) :
    ((updateRestAndHealButtons (.bool canRest) (.bool canHeal) p).restDisabled = true ↔
        canRest = false) ∧
    ((updateRestAndHealButtons (.bool canRest) (.bool canHeal) p).healDisabled = true ↔
        canHeal = false) ∧
    (∀ (other : Bool) (q : Page),
      (updateRestAndHealButtons (.bool canRest) (.bool other) q).restDisabled =
          (updateRestAndHealButtons (.bool canRest) (.bool canHeal) p).restDisabled ∧
        (updateRestAndHealButtons (.bool other) (.bool canHeal) q).healDisabled =
          (updateRestAndHealButtons (.bool canRest) (.bool canHeal) p).healDisabled) ∧
    (∀ gameUpdate : JSVal, (processGameUpdate gameUpdate p).2 = .normal →
      gameUpdate.prop "can_rest" = .bool canRest →
      gameUpdate.prop "can_heal" = .bool canHeal →
      ((processGameUpdate gameUpdate p).1.restDisabled = true ↔ canRest = false) ∧
        ((processGameUpdate gameUpdate p).1.healDisabled = true ↔ canHeal = false)) ∧
    (∀ gameUpdate : JSVal, (processGameUpdate gameUpdate p).2 ≠ .normal →
      (processGameUpdate gameUpdate p).1.restDisabled = p.restDisabled ∧
        (processGameUpdate gameUpdate p).1.healDisabled = p.healDisabled) := by
  refine ⟨?_, ?_, ?_, ?_, ?_⟩
  · simp [updateRestAndHealButtons_eq, JSVal.truthy]
  · simp [updateRestAndHealButtons_eq, JSVal.truthy]
  · intro other q
    simp [updateRestAndHealButtons_eq, JSVal.truthy]
  · intro gu hn hr hh
    obtain ⟨m, inv, st, op, hm, hi, hs, ho⟩ := processGameUpdate_normal_inv gu p hn
    rw [processGameUpdate_normal gu p m inv st op hm hi hs ho]
    simp [hr, hh, JSVal.truthy]
  · intro gu hn
    exact processGameUpdate_stopped_buttons gu p hn

/-- Witness for C8, amended: the fatal update, whose two flags are false,
disables both buttons. -/
theorem rest_heal_follow_flags_witness :
    (processGameUpdate fatalUpdate blankPage).2 = .normal ∧
      (((processGameUpdate fatalUpdate blankPage).1.restDisabled = true ↔ false = false) ∧
        ((processGameUpdate fatalUpdate blankPage).1.healDisabled = true ↔ false = false)) :=
  ⟨by decide,
    (rest_heal_follow_flags false false blankPage).2.2.2.1 fatalUpdate (by decide) rfl rfl⟩

/-- C7: when `handleCategorySubmission` runs on the ten category selects, each
with a selected option, it succeeds; `saved_categories` then maps the id of
each select to the option selected at that moment, the confirm form is gone,
and no sequence of later events (typing, chat submission, timer, option click,
game update, sidebar toggle, clear chat, a change of a select, a submit of the
form) changes `saved_categories`. -/
theorem saved_categories_frozen (p : Page)
    (hids : p.selects.map Select.id = categoryIds)
    (hsel : ∀ s ∈ p.selects, s.value ≠ none) :
    (∀ s ∈ p.selects, lookupSaved s.id (handleCategorySubmission p).saved_categories = s.value) ∧
      (handleCategorySubmission p).confirmButton = false ∧
      ∀ events : List Event,
        (run (handleCategorySubmission p) events).saved_categories =
          (handleCategorySubmission p).saved_categories := by
  have hn : (p.selects.map Select.id).Nodup := by
    rw [hids]
    decide
  rw [handleCategorySubmission_complete p hsel]
  refine ⟨?_, rfl, ?_⟩
  · exact saveSelections_lookup p.selects p.saved_categories hn hsel
  · intro events
    exact run_keeps_saved events _ rfl

/-- Witness for C7: the page as generated, every select showing its first
option. -/
theorem saved_categories_frozen_witness :
    (generateCategoriesAndHandlers blankPage).selects.map Select.id = categoryIds ∧
      (handleCategorySubmission (generateCategoriesAndHandlers blankPage)).confirmButton = false ∧
      ∀ events : List Event,
        (run (handleCategorySubmission (generateCategoriesAndHandlers blankPage))
            events).saved_categories =
          (handleCategorySubmission (generateCategoriesAndHandlers blankPage)).saved_categories :=
  ⟨by decide,
    (saved_categories_frozen (generateCategoriesAndHandlers blankPage) (by decide)
      (by decide)).2⟩

/-- C10, as stated, fails: on the generated page with the `Trait` select
cleared and `saved_categories` empty, `handleCategorySubmission` shows the
error modal and leaves the selects and the confirm form as they were, but
`saved_categories` is no longer what it was: it holds the selection of
`History`, the select before `Trait`. -/
theorem handleCategorySubmission_records_earlier_selects :
    traitClearedPage.saved_categories = [] ∧
      (handleCategorySubmission traitClearedPage).saved_categories =
        [("History", "🐊 A young and curious adventurer")] ∧
      (handleCategorySubmission traitClearedPage).selects = traitClearedPage.selects ∧
      (handleCategorySubmission traitClearedPage).confirmButton = true ∧
      (handleCategorySubmission traitClearedPage).modals =
        [modalHead ++ "Error" ++ modalMiddle ++ "Category \"Trait\" has no selected option." ++
          modalTail] := by
  refine ⟨by decide, by decide, by decide, by decide, ?_⟩
  have h : handleCategorySubmission traitClearedPage =
      createModal "Error" "Category \"Trait\" has no selected option."
        { traitClearedPage with
          saved_categories := [("History", "🐊 A young and curious adventurer")] } := by
    rfl
  rw [h]
  simp only [createModal, format_modal_template]
  rfl

/-- C10, amended: `handleCategorySubmission` takes nothing back.  If a select
has no selected option, it shows the error modal naming the first such
category and leaves the selects, the confirm form and the chat as they were,
and `saved_categories` has received the selections of the selects before that
one.  If every select has a selected option, all selections are stored, every
select is disabled and the confirm form removed, with no modal.  A page all
of whose selects have a selected option keeps that through every event. -/
theorem handleCategorySubmission_outcomes (p : Page) :
    (∀ (before after : List Select) (s : Select), p.selects = before ++ s :: after →
      (∀ t ∈ before, t.value ≠ none) → s.value = none →
      (handleCategorySubmission p).modals =
          p.modals ++ [modalHead ++ "Error" ++ modalMiddle ++
            ("Category \"" ++ s.id ++ "\" has no selected option.") ++ modalTail] ∧
        (handleCategorySubmission p).saved_categories =
          recordSelections (selections before) p.saved_categories ∧
        (handleCategorySubmission p).selects = p.selects ∧
        (handleCategorySubmission p).confirmButton = p.confirmButton ∧
        (handleCategorySubmission p).chat = p.chat) ∧
    ((∀ s ∈ p.selects, s.value ≠ none) →
      (handleCategorySubmission p).saved_categories =
          recordSelections (selections p.selects) p.saved_categories ∧
        (handleCategorySubmission p).selects =
          p.selects.map (fun s => { s with disabled := true }) ∧
        (handleCategorySubmission p).confirmButton = false ∧
        (handleCategorySubmission p).modals = p.modals) ∧
    ((∀ s ∈ p.selects, s.value ≠ none) →
      ∀ events : List Event, ∀ s ∈ (run p events).selects, s.value ≠ none) := by
  refine ⟨?_, ?_, ?_⟩
  · intro before after s hsplit hb hs
    rw [handleCategorySubmission_incomplete p before after s hsplit hb hs]
    simp [createModal, format_modal_template]
  · intro hsel
    have hsave : saveSelections p.selects p.saved_categories =
        (recordSelections (selections p.selects) p.saved_categories, none) := by
      have := saveSelections_append p.selects [] p.saved_categories hsel
      simpa [saveSelections] using this
    rw [handleCategorySubmission_complete p hsel, hsave]
    exact ⟨rfl, rfl, rfl, rfl⟩
  · intro hsel events
    exact run_keeps_selected events p hsel

/-- Witness for C10, amended: the generated page with the `Trait` select
cleared; `History` is the one select before it. -/
theorem handleCategorySubmission_outcomes_witness :
    traitClearedPage.selects =
        traitClearedPage.selects.take 1 ++
          (traitClearedPage.selects.getD 1 ⟨"", [], none, false⟩) ::
            traitClearedPage.selects.drop 2 ∧
      (handleCategorySubmission traitClearedPage).saved_categories =
        recordSelections (selections (traitClearedPage.selects.take 1))
          traitClearedPage.saved_categories :=
  ⟨by decide,
    ((handleCategorySubmission_outcomes traitClearedPage).1 (traitClearedPage.selects.take 1)
      (traitClearedPage.selects.drop 2) (traitClearedPage.selects.getD 1 ⟨"", [], none, false⟩)
      (by decide) (by decide) (by decide)).2.1⟩

/-- C9: `format` replaces in one pass.  A placeholder `{n}`, with `n` written
as a decimal numeral, whose argument is defined is replaced by that argument,
and the scan goes on after the placeholder, not inside the inserted text; a
placeholder whose digits name no defined argument is kept; a character that
does not start a placeholder is kept; the empty template gives the empty
string.  So `'{0}'.format('{1}', 'x')` is `'{1}'`, a numeral with a leading
zero names no argument, and `createModal` shows the template with title and
content put in verbatim. -/
theorem format_single_pass (args : List JSVal) :
    (∀ (n : Nat) (rest : String), (args.getD n .undefined).isUndefined = false →
      format ("\x7b" ++ toString n ++ "\x7d" ++ rest) args =
        (args.getD n .undefined).toStr ++ format rest args) ∧
    (∀ ds rest : String, ds ≠ "" → (∀ c ∈ ds.data, c.isDigit = true) →
      (∀ n : Nat, toString n = ds → (args.getD n .undefined).isUndefined = true) →
      format ("\x7b" ++ ds ++ "\x7d" ++ rest) args = "\x7b" ++ ds ++ "\x7d" ++ format rest args) ∧
    (∀ (c : Char) (rest : String),
      (¬ ∃ ds tail : String, ds ≠ "" ∧ (∀ d ∈ ds.data, d.isDigit = true) ∧
        String.singleton c ++ rest = "\x7b" ++ ds ++ "\x7d" ++ tail) →
      format (String.singleton c ++ rest) args = String.singleton c ++ format rest args) ∧
    format "" args = "" ∧
    format "\x7b0\x7d" [.str "\x7b1\x7d", .str "x"] = "\x7b1\x7d" ∧
    format "\x7b01\x7d \x7b1\x7d" [.str "a", .str "b"] = "\x7b01\x7d b" ∧
    (∀ (title content : String) (p : Page),
      (createModal title content p).modals =
        p.modals ++ [modalHead ++ title ++ modalMiddle ++ content ++ modalTail]) := by
  refine ⟨?_, ?_, ?_, rfl, by decide, by decide, ?_⟩
  · exact fun n rest h => format_hole_defined args n rest h
  · exact fun ds rest hne hd h => format_hole_kept args ds rest hne hd h
  · exact fun c rest h => format_keep args c rest h
  · intro title content p
    simp only [createModal, format_modal_template]

/-- Witness for C9: a title that is itself a placeholder goes in unchanged. -/
theorem format_single_pass_witness :
    (JSVal.str "\x7b1\x7d").isUndefined = false ∧
      format ("\x7b" ++ toString 0 ++ "\x7d" ++ " and \x7b1\x7d") [.str "\x7b1\x7d", .str "x"] =
        (JSVal.str "\x7b1\x7d").toStr ++ format " and \x7b1\x7d" [.str "\x7b1\x7d", .str "x"] :=
  ⟨rfl, (format_single_pass [.str "\x7b1\x7d", .str "x"]).1 0 " and \x7b1\x7d" rfl⟩

end ChatStory
